import Mathlib

/-!
# The `tc` frontend: handler resolution, dispatcher, batch engine, session lifecycle

A shallow embedding of `tc/tc.c` and `tc/tc_main.c`.

* C strings are lists of characters (`Str`); a `NULL` pointer is `none`.
* `FILE *` output is the text that the call writes.
* The linked lists `qdisc_list` / `filter_list` are Lean lists, head first.
* Everything that lives outside the two source files (the dynamic loader, the
  allocator, the per-object routines, the netlink transport, the tokenizer)
  is an explicit parameter of the function that calls it.
-/

namespace Tc

/-- Contents of a NUL-terminated C string. -/
abbrev Str := List Char

/-! ## printf conversions used by the source -/

/-- The conversion `%u`: decimal digits, most significant first. -/
def fmt_u (n : Nat) : Str := Nat.toDigits 10 n

/-- The conversion `%08x`: lower-case hexadecimal, padded on the left with
zeros to a minimum width of 8. -/
def fmt_08x (n : Nat) : Str := List.leftpad 8 '0' (Nat.toDigits 16 n)

/-- Value of one lower-case hexadecimal digit (16 for any other character). -/
def hexDigitVal (c : Char) : Nat :=
  if '0' ≤ c ∧ c ≤ '9' then c.toNat - '0'.toNat
  else if 'a' ≤ c ∧ c ≤ 'f' then c.toNat - 'a'.toNat + 10
  else 16

/-- Reads a digit string in base `b`, most significant digit first. -/
def digitsVal (b : Nat) (s : Str) : Nat :=
  s.foldl (fun acc c => acc * b + hexDigitVal c) 0

/-- Conversion of a C `int` to `unsigned int`. -/
def to_u32 (i : Int) : Nat := (i % (2 ^ 32 : Int)).toNat

/-! ## Netlink structures seen by the stubs -/

/-- Header of a routing attribute; `rta_len` is an `unsigned short`. -/
structure rtattr where
  rta_len : Nat
  rta_type : Nat
  deriving DecidableEq

/-- Modelled from the spec: the macro `RTA_PAYLOAD` comes from
`linux/rtnetlink.h`, which is not among the sources. The spec speaks of an
option blob of length `n`; following the header, that length is `rta_len`
(16 bits) minus the 4-byte attribute header, as a C `int`. -/
def RTA_PAYLOAD (opt : rtattr) : Int := ((opt.rta_len % 2 ^ 16 : Nat) : Int) - 4

/-- Traffic-control message header, the payload of the request. -/
structure tcmsg where
  tcm_family : Nat
  tcm_ifindex : Int
  tcm_handle : Nat
  tcm_parent : Nat
  tcm_info : Nat
  deriving DecidableEq

/-- The message-build context handed to `parse_qopt` / `parse_fopt`: the
netlink header, the `tcmsg` returned by `NLMSG_DATA`, and the attribute bytes
appended so far. -/
structure nlmsghdr where
  nlmsg_len : Nat
  nlmsg_type : Nat
  nlmsg_flags : Nat
  nlmsg_seq : Nat
  nlmsg_pid : Nat
  data : tcmsg
  attrs : List Nat
  deriving DecidableEq

/-! ## Handler descriptors -/

/-- Identity of a handler object: a block obtained from `calloc`, or an object
of some loaded image found by `dlsym`. -/
inductive Ptr where
  | heap (n : Nat)
  | sym (addr : Nat)
  deriving DecidableEq

/-- The pair of function pointers `parse_*opt` / `print_*opt` of a handler:
either the two stub functions of `tc.c`, or routines of a real implementation
(identified by a number). -/
inductive Impl where
  | noopt
  | real (n : Nat)
  deriving DecidableEq

/-- A `struct qdisc_util`; `next` is the tail of the list it sits in.
The field `id` is a `const char *`. -/
structure qdisc_util where
  self : Ptr
  id : Str
  impl : Impl
  deriving DecidableEq

/-- A `struct filter_util`; `id` is an array `char id[16]`. -/
structure filter_util where
  self : Ptr
  id : Str
  impl : Impl
  deriving DecidableEq

/-- Result of a `parse_*opt` call: return value, message-build context
afterwards, text written to `stderr`. -/
structure ParseResult where
  ret : Int
  n : nlmsghdr
  err : Str
  deriving DecidableEq

/-- Result of a `print_*opt` call: return value and text written to `f`. -/
structure PrintResult where
  ret : Int
  out : Str
  deriving DecidableEq

/-! ## The stubs of `tc.c` -/

/-- The function `print_noqopt` of `tc.c`. -/
def print_noqopt (_qu : qdisc_util) (opt : Option rtattr) : PrintResult :=
  -- `opt && RTA_PAYLOAD(opt)`
  let optlen : Int := match opt with
    | some o => RTA_PAYLOAD o
    | none => 0
  if optlen ≠ 0 then
    ⟨0, "[Unknown qdisc, optlen=".toList ++ fmt_u (to_u32 optlen) ++ "] ".toList⟩
  else ⟨0, []⟩

/-- The function `parse_noqopt` of `tc.c`; `*argv` of an empty vector is
rendered as the empty string. -/
def parse_noqopt (qu : qdisc_util) (argc : Int) (argv : List Str) (n : nlmsghdr) :
    ParseResult :=
  if argc ≠ 0 then
    ⟨-1, n, "Unknown qdisc \"".toList ++ qu.id ++ "\", hence option \"".toList ++
      argv.headD [] ++ "\" is unparsable\n".toList⟩
  else ⟨0, n, []⟩

/-- The function `print_nofopt` of `tc.c`; `fhandle` is a `__u32`. -/
def print_nofopt (_qu : filter_util) (opt : Option rtattr) (fhandle : Nat) : PrintResult :=
  -- `opt && RTA_PAYLOAD(opt)`
  let optlen : Int := match opt with
    | some o => RTA_PAYLOAD o
    | none => 0
  if optlen ≠ 0 then
    ⟨0, "fh ".toList ++ fmt_08x fhandle ++ " [Unknown filter, optlen=".toList ++
      fmt_u (to_u32 optlen) ++ "] ".toList⟩
  else if fhandle ≠ 0 then
    ⟨0, "fh ".toList ++ fmt_08x fhandle ++ " ".toList⟩
  else ⟨0, []⟩

/-- The function `parse_nofopt` of `tc.c`. The helper `get_u32` lives in
`lib/utils.c`; it is a parameter: `get_u32 s base` is `none` when the C
function returns non-zero and `some v` when it stores `v` and returns 0. -/
def parse_nofopt (get_u32 : Str → Nat → Option Nat) (qu : filter_util)
    (fhandle : Option Str) (argc : Int) (argv : List Str) (n : nlmsghdr) : ParseResult :=
  if argc ≠ 0 then
    ⟨-1, n, "Unknown filter \"".toList ++ qu.id ++ "\", hence option \"".toList ++
      argv.headD [] ++ "\" is unparsable\n".toList⟩
  else
    match fhandle with
    | some fh =>
      match get_u32 fh 16 with
      | none => ⟨-1, n, "Unparsable filter ID \"".toList ++ fh ++ "\"\n".toList⟩
      | some handle => ⟨0, { n with data := { n.data with tcm_handle := handle } }, []⟩
    | none => ⟨0, n, []⟩

/-! ## Handler resolution (`get_qdisc_kind`, `get_filter_kind`) -/

/-- The dynamic loader and the allocator, as one resolver call sees them. -/
structure DlEnv where
  /-- Value of `get_tc_lib()`. -/
  tc_lib : Str
  /-- The call `dlopen(path, RTLD_LAZY)`; the path `none` is `NULL`, the
  result `none` is `NULL`. -/
  dlopen : Option Str → Option Nat
  /-- The call `dlsym(handle, name)` read as a `struct qdisc_util *`. -/
  dlsym_qdisc : Nat → Str → Option qdisc_util
  /-- The call `dlsym(handle, name)` read as a `struct filter_util *`. -/
  dlsym_filter : Nat → Str → Option filter_util
  /-- Whether `calloc` returns a block. -/
  calloc_ok : Bool

/-- Loader calls made during a resolver call, in order. -/
inductive DlEvent where
  | dlopen_file (path : Str) (res : Option Nat)
  | dlopen_self (res : Option Nat)
  | dlsym (handle : Nat) (name : Str)
  deriving DecidableEq

/-- The static variables of `tc.c`, and the number of blocks `calloc` has
handed out (block `k` is `Ptr.heap k`; blocks are never freed). -/
structure Registry where
  BODY : Option Nat
  qdisc_list : List qdisc_util
  filter_list : List filter_util
  brk : Nat
  deriving DecidableEq

/-- The state at process start. -/
def Registry.init : Registry := ⟨none, [], [], 0⟩

/-- Result of a resolver call: the returned pointer (`none` is `NULL`), the
statics afterwards, the loader calls made. -/
structure Resolved (α : Type) where
  ret : Option α
  st : Registry
  trace : List DlEvent

/-- The call `snprintf(buf, sizeof(buf), ...)` into `char buf[256]`: at most
255 characters are stored. -/
def snprintf_buf (s : Str) : Str := s.take 255

/-- Lines 98-108 of `tc.c` (142-151 for filters): try the extension file,
else the cached handle `BODY`, else `dlopen(NULL)` which is then cached.
Returns the handle `dlh` (`none` for the jump to `noexist`). -/
def open_handle (E : DlEnv) (st : Registry) (path : Str) :
    Option Nat × Registry × List DlEvent :=
  match E.dlopen (some path) with
  | some h => (some h, st, [.dlopen_file path (some h)])
  | none =>
    match st.BODY with
    | some b => (some b, st, [.dlopen_file path none])
    | none =>
      let b := E.dlopen none
      (b, { st with BODY := b }, [.dlopen_file path none, .dlopen_self b])

/-- Labels `noexist` / `reg` of `get_qdisc_kind`: allocate the stub, copy the
name with `strdup`, link it at the head of `qdisc_list`. -/
def qdisc_noexist (E : DlEnv) (st : Registry) (str : Str) (tr : List DlEvent) :
    Resolved qdisc_util :=
  if E.calloc_ok then
    let q : qdisc_util := ⟨.heap st.brk, str, .noopt⟩
    ⟨some q, { st with qdisc_list := q :: st.qdisc_list, brk := st.brk + 1 }, tr⟩
  else ⟨none, st, tr⟩

/-- The function `get_qdisc_kind` of `tc.c`. -/
def get_qdisc_kind (E : DlEnv) (st : Registry) (str : Str) : Resolved qdisc_util :=
  match st.qdisc_list.find? (fun q => q.id == str) with
  | some q => ⟨some q, st, []⟩
  | none =>
    let buf := snprintf_buf (E.tc_lib ++ "/q_".toList ++ str ++ ".so".toList)
    match open_handle E st buf with
    | (none, st1, tr) => qdisc_noexist E st1 str tr
    | (some dlh, st1, tr) =>
      let buf := snprintf_buf (str ++ "_qdisc_util".toList)
      match E.dlsym_qdisc dlh buf with
      | none => qdisc_noexist E st1 str (tr ++ [.dlsym dlh buf])
      | some q =>
        ⟨some q, { st1 with qdisc_list := q :: st1.qdisc_list }, tr ++ [.dlsym dlh buf]⟩

/-- Labels `noexist` / `reg` of `get_filter_kind`: allocate the zeroed stub,
copy the name with `strncpy(q->id, str, 15)`, link it at the head of
`filter_list`. -/
def filter_noexist (E : DlEnv) (st : Registry) (str : Str) (tr : List DlEvent) :
    Resolved filter_util :=
  if E.calloc_ok then
    let q : filter_util := ⟨.heap st.brk, str.take 15, .noopt⟩
    ⟨some q, { st with filter_list := q :: st.filter_list, brk := st.brk + 1 }, tr⟩
  else ⟨none, st, tr⟩

/-- The function `get_filter_kind` of `tc.c`. -/
def get_filter_kind (E : DlEnv) (st : Registry) (str : Str) : Resolved filter_util :=
  match st.filter_list.find? (fun q => q.id == str) with
  | some q => ⟨some q, st, []⟩
  | none =>
    let buf := snprintf_buf (E.tc_lib ++ "/f_".toList ++ str ++ ".so".toList)
    match open_handle E st buf with
    | (none, st1, tr) => filter_noexist E st1 str tr
    | (some dlh, st1, tr) =>
      let buf := snprintf_buf (str ++ "_filter_util".toList)
      match E.dlsym_filter dlh buf with
      | none => filter_noexist E st1 str (tr ++ [.dlsym dlh buf])
      | some q =>
        ⟨some q, { st1 with filter_list := q :: st1.filter_list }, tr ++ [.dlsym dlh buf]⟩

/-! ## Dispatcher (`tc_cmd`) -/

/-- Modelled from the spec: the helper `matches` is defined in `lib/utils.c`,
which is not among the sources. Following the spec (a supplied keyword
matches a known keyword if it is a case-sensitive prefix of it), the result
is 0 exactly when `cmd` is a prefix of `pattern`, and non-zero otherwise. -/
def matches_ (cmd pattern : Str) : Int := if cmd.isPrefixOf pattern then 0 else -1

/-- The per-object routines, defined outside `tc.c`. -/
inductive Routine where
  | do_qdisc | do_class | do_filter | do_action | do_tcmonitor | do_exec
  deriving DecidableEq

/-- What a run does that can be observed from outside, in order. -/
inductive Event where
  /-- A per-object routine is entered with `(argc-1, argv+1)`. -/
  | call (r : Routine) (argv : List Str)
  /-- The function `tc_usage` prints the usage text. -/
  | tc_usage
  /-- Message `Object "%s" is unknown, try "tc help".` -/
  | unknown_object (name : Str)
  /-- The function `tc_cmd` is entered on an argument vector and returns `ret`. -/
  | tc_cmd (argv : List Str) (ret : Int)
  | tc_core_init
  /-- The call `rtnl_open(&rth, 0)` and whether it succeeded. -/
  | rtnl_open (ok : Bool)
  /-- The call `rtnl_close(&rth)`. -/
  | rtnl_close
  /-- Message `Cannot open rtnetlink`. -/
  | cannot_open_rtnetlink
  /-- Message `Cannot open file "%s" for reading: %s`. -/
  | cannot_open_file (name : Str)
  /-- Message `Command failed %s:%d`. -/
  | command_failed (name : Option Str) (cmdlineno : Nat)
  /-- The version line printed for `-Version`. -/
  | version
  /-- Message `Option "%s" is unknown, try "tc -help".` -/
  | unknown_option (opt : Str)
  | netns_switch (name : Option Str)
  | cls_names_init (conf_file : Option Str)
  | cls_names_uninit
  /-- The function `incomplete_command` reports and terminates the process. -/
  | incomplete_command
  deriving DecidableEq

/-- The collaborators of `tc.c` / `tc_main.c` that live elsewhere; `σ` is
whatever state the per-object routines act on (the kernel, the terminal). -/
structure Collab (σ : Type) where
  /-- The routine `r` run on `(argc, argv)`: return value and new state. -/
  routine : Routine → σ → List Str → Int × σ
  /-- Return value of `rtnl_open(&rth, 0)`. -/
  rtnl_open : Int
  /-- The call `freopen(name, "r", stdin)`: `none` when it returns `NULL`,
  else the lines `getcmdline` will read, each as `makeargs` splits it. -/
  freopen : Str → Option (List (List Str))
  /-- The lines of the original standard input, each as `makeargs` splits it. -/
  stdin : List (List Str)
  /-- Return value of `netns_switch(name)`. -/
  netns_switch : Option Str → Int
  /-- Return value of `cls_names_init(path)`. -/
  cls_names_init : Option Str → Int

/-- A function that ran to its `return`: value, state of the routines,
events. -/
structure Run (σ : Type) where
  ret : Int
  w : σ
  trace : List Event

/-- Enter one per-object routine with the remaining arguments. -/
def run_routine {σ : Type} (X : Collab σ) (r : Routine) (w : σ) (rest : List Str) : Run σ :=
  ⟨(X.routine r w rest).1, (X.routine r w rest).2, [.call r rest]⟩

/-- The function `tc_cmd` of `tc.c`, called with `argc ≥ 1`: `first` is
`*argv`, `rest` is `argv+1` (of length `argc-1`). -/
def tc_cmd {σ : Type} (X : Collab σ) (w : σ) (first : Str) (rest : List Str) : Run σ :=
  if matches_ first "qdisc".toList = 0 then run_routine X .do_qdisc w rest
  else if matches_ first "class".toList = 0 then run_routine X .do_class w rest
  else if matches_ first "filter".toList = 0 then run_routine X .do_filter w rest
  else if matches_ first "actions".toList = 0 then run_routine X .do_action w rest
  else if matches_ first "monitor".toList = 0 then run_routine X .do_tcmonitor w rest
  else if matches_ first "exec".toList = 0 then run_routine X .do_exec w rest
  else if matches_ first "help".toList = 0 then ⟨0, w, [.tc_usage]⟩
  else ⟨-1, w, [.unknown_object first]⟩

/-! ## Session lifecycle and batch engine -/

/-- The globals of `tc_main.c` (and `timestamp_short` of the library). -/
structure Globals where
  show_stats : Int
  show_details : Int
  show_raw : Int
  show_pretty : Int
  show_graph : Int
  timestamp : Int
  timestamp_short : Int
  batch_mode : Int
  resolve_hosts : Int
  use_iec : Int
  force : Int
  use_names : Bool
  conf_file : Option Str
  deriving DecidableEq

/-- All globals zero, as at process start. -/
def Globals.init : Globals := ⟨0, 0, 0, 0, 0, 0, 0, 0, 0, 0, 0, false, none⟩

/-- How the process, or a function that may end it, finished: by `return`
or inside `exit`. -/
inductive Status where
  | returned (code : Int)
  | exited (code : Int)
  deriving DecidableEq

/-- Result of `batch` / `main`. -/
structure Proc (σ : Type) where
  status : Status
  g : Globals
  w : σ
  trace : List Event

/-- The function `tc_init` of `tc.c`: `false` when it ends in `exit(1)`. -/
def tc_init {σ : Type} (X : Collab σ) : Bool × List Event :=
  if X.rtnl_open < 0 then (false, [.tc_core_init, .rtnl_open false, .cannot_open_rtnetlink])
  else (true, [.tc_core_init, .rtnl_open true])

/-- The function `tc_exit` of `tc.c`. -/
def tc_exit : List Event := [.rtnl_close]

/-- The `while (getcmdline(...) != -1)` loop of `batch`. The lines still to
be read are the list; `cmdlineno` counts the lines read so far, `ret` is the
local of `batch`. Each line is the vector `makeargs` produced (`largc` is its
length). -/
def batch_loop {σ : Type} (X : Collab σ) (force : Int) (name : Option Str) :
    List (List Str) → Nat → Int → σ → Run σ
  | [], _, ret, w => ⟨ret, w, []⟩
  | [] :: more, cmdlineno, ret, w =>
    -- `largc == 0`: blank line, `continue`
    batch_loop X force name more (cmdlineno + 1) ret w
  | (first :: rest) :: more, cmdlineno, ret, w =>
    let r := tc_cmd X w first rest
    let ev := Event.tc_cmd (first :: rest) r.ret :: r.trace
    if r.ret ≠ 0 then
      let ev := ev ++ [.command_failed name (cmdlineno + 1)]
      if force = 0 then ⟨1, r.w, ev⟩  -- `break`
      else
        let k := batch_loop X force name more (cmdlineno + 1) 1 r.w
        ⟨k.ret, k.w, ev ++ k.trace⟩
    else
      let k := batch_loop X force name more (cmdlineno + 1) ret r.w
      ⟨k.ret, k.w, ev ++ k.trace⟩

/-- Lines 56-62 of `tc_main.c`: the stream `stdin` that `batch` goes on to
read, `none` when `freopen` fails. A name that is `NULL` or `-` leaves the
original standard input in place. -/
def batch_input {σ : Type} (X : Collab σ) (name : Option Str) : Option (List (List Str)) :=
  match name with
  | some nm => if nm ≠ "-".toList then X.freopen nm else some X.stdin
  | none => some X.stdin

/-- The function `batch` of `tc_main.c`. -/
def batch {σ : Type} (X : Collab σ) (g : Globals) (w : σ) (name : Option Str) : Proc σ :=
  let g := { g with batch_mode := 1 }
  match batch_input X name with
  | none => ⟨.returned (-1), g, w, [.cannot_open_file (name.getD [])]⟩
  | some lines =>
    match tc_init X with
    | (false, tr) => ⟨.exited 1, g, w, tr⟩
    | (true, tr) =>
      let r := batch_loop X g.force name lines 0 0 w
      ⟨.returned r.ret, g, r.w, tr ++ r.trace ++ tc_exit⟩

/-! ## `main` -/

/-- How the option loop of `main` ends: inside a `return` / `exit`, or by
leaving the loop with the remaining vector (`argc` is its length). -/
inductive OptResult where
  | stop (status : Status) (g : Globals) (tr : List Event)
  | done (g : Globals) (batch_file : Option Str) (argv : List Str) (tr : List Event)

/-- How one pass through the body of the option loop ends. -/
inductive OptStep where
  /-- A `return` or an `exit` inside the loop. -/
  | leave (status : Status) (g : Globals) (tr : List Event)
  /-- The pass reaches the final `argc--; argv++;` having consumed the option only. -/
  | next (g : Globals) (batch_file : Option Str) (tr : List Event)
  /-- The pass reaches the final `argc--; argv++;` after an earlier
  `argc--; argv++;` or `NEXT_ARG()`: the option and one more slot are consumed. -/
  | next2 (g : Globals) (batch_file : Option Str) (tr : List Event)

/-- The chain of tests in the body of the `while (argc > 1)` loop of `main`,
for `argv[1] = opt` followed by `rest`. The macro `NEXT_ARG()` of `utils.h`
(`argv++; if (--argc <= 0) incomplete_command();`) is expanded in place. -/
def main_opt {σ : Type} (X : Collab σ) (g : Globals) (batch_file : Option Str)
    (tr : List Event) (opt : Str) (rest : List Str) : OptStep :=
  if matches_ opt "-stats".toList = 0 ∨ matches_ opt "-statistics".toList = 0 then
    .next { g with show_stats := g.show_stats + 1 } batch_file tr
  else if matches_ opt "-details".toList = 0 then
    .next { g with show_details := g.show_details + 1 } batch_file tr
  else if matches_ opt "-raw".toList = 0 then
    .next { g with show_raw := g.show_raw + 1 } batch_file tr
  else if matches_ opt "-pretty".toList = 0 then
    .next { g with show_pretty := g.show_pretty + 1 } batch_file tr
  else if matches_ opt "-graph".toList = 0 then
    .next { g with show_graph := 1 } batch_file tr
  else if matches_ opt "-Version".toList = 0 then
    .leave (.returned 0) g (tr ++ [.version])
  else if matches_ opt "-iec".toList = 0 then
    .next { g with use_iec := g.use_iec + 1 } batch_file tr
  else if matches_ opt "-help".toList = 0 then
    .leave (.returned 0) g (tr ++ [.tc_usage])
  else if matches_ opt "-force".toList = 0 then
    .next { g with force := g.force + 1 } batch_file tr
  else if matches_ opt "-batch".toList = 0 then
    -- `argc--; argv++;` the vector is now `opt :: rest`
    -- `if (argc <= 1) tc_usage();`
    let tr := if (opt :: rest).length ≤ 1 then tr ++ [.tc_usage] else tr
    -- `batch_file = argv[1];`
    .next2 g rest.head? tr
  else if matches_ opt "-netns".toList = 0 then
    -- `NEXT_ARG()`: the vector is now `opt :: rest`
    if (opt :: rest).length ≤ 0 then .leave (.exited (-1)) g (tr ++ [.incomplete_command])
    else if X.netns_switch rest.head? ≠ 0 then
      .leave (.returned (-1)) g (tr ++ [.netns_switch rest.head?])
    else .next2 g batch_file (tr ++ [.netns_switch rest.head?])
  else if matches_ opt "-names".toList = 0 ∨ matches_ opt "-nm".toList = 0 then
    .next { g with use_names := true } batch_file tr
  else if matches_ opt "-cf".toList = 0 ∨ matches_ opt "-conf".toList = 0 then
    -- `NEXT_ARG()`: the vector is now `opt :: rest`
    if (opt :: rest).length ≤ 0 then .leave (.exited (-1)) g (tr ++ [.incomplete_command])
    else .next2 { g with conf_file := rest.head? } batch_file tr
  else if matches_ opt "-timestamp".toList = 0 then
    .next { g with timestamp := g.timestamp + 1 } batch_file tr
  else if matches_ opt "-tshort".toList = 0 then
    .next { g with timestamp := g.timestamp + 1,
                   timestamp_short := g.timestamp_short + 1 } batch_file tr
  else .leave (.returned (-1)) g (tr ++ [.unknown_option opt])

/-- The `while (argc > 1)` loop of `main`. The vector is `argv` with `argv[0]`
first and `argc` its length; `argc--; argv++` drops the head. -/
def main_opts {σ : Type} (X : Collab σ) :
    Globals → Option Str → List Event → List Str → OptResult
  | g, batch_file, tr, argv0 :: opt :: rest =>
    -- `if (argv[1][0] != '-') break;`
    if opt.head? ≠ some '-' then .done g batch_file (argv0 :: opt :: rest) tr
    else
      match main_opt X g batch_file tr opt rest with
      | .leave status g tr => .stop status g tr
      | .next g batch_file tr => main_opts X g batch_file tr (opt :: rest)
      | .next2 g batch_file tr => main_opts X g batch_file tr rest
  | g, batch_file, tr, argv => .done g batch_file argv tr

/-- The part of `main` after the option loop. -/
def main_rest {σ : Type} (X : Collab σ) (w : σ) : OptResult → Proc σ
  | .stop status g tr => ⟨status, g, w, tr⟩
  | .done g (some batch_file) _ tr =>
    let p := batch X g w (some batch_file)
    { p with trace := tr ++ p.trace }
  | .done g none (_ :: first :: rest) tr =>
    match tc_init X with
    | (false, ti) => ⟨.exited 1, g, w, tr ++ ti⟩
    | (true, ti) =>
      if g.use_names = true ∧ X.cls_names_init g.conf_file ≠ 0 then
        -- `ret = -1; goto Exit;`
        ⟨.returned (-1), g, w,
          tr ++ ti ++ [.cls_names_init g.conf_file] ++ tc_exit ++ [.cls_names_uninit]⟩
      else
        let r := tc_cmd X w first rest
        ⟨.returned r.ret, g, r.w,
          tr ++ ti ++ (if g.use_names then [.cls_names_init g.conf_file] else []) ++
            (Event.tc_cmd (first :: rest) r.ret :: r.trace) ++ tc_exit ++
            (if g.use_names then [.cls_names_uninit] else [])⟩
  | .done g none _ tr =>
    -- `argc <= 1`
    ⟨.returned 0, g, w, tr ++ [.tc_usage]⟩

/-- The function `main` of `tc_main.c`; `argv` includes `argv[0]`. -/
def main {σ : Type} (X : Collab σ) (w : σ) (argv : List Str) : Proc σ :=
  main_rest X w (main_opts X Globals.init none [] argv)

/-! ## Definitions used to state the properties -/

/-- Where `tc_cmd` sends a first argument: the decision taken by its chain of
`matches` tests, separated from what the chosen branch then does. -/
inductive Route where
  | to (r : Routine)
  | help
  | unknown
  deriving DecidableEq

/-- The chain of tests of `tc_cmd`, in source order. -/
def route (first : Str) : Route :=
  if matches_ first "qdisc".toList = 0 then .to .do_qdisc
  else if matches_ first "class".toList = 0 then .to .do_class
  else if matches_ first "filter".toList = 0 then .to .do_filter
  else if matches_ first "actions".toList = 0 then .to .do_action
  else if matches_ first "monitor".toList = 0 then .to .do_tcmonitor
  else if matches_ first "exec".toList = 0 then .to .do_exec
  else if matches_ first "help".toList = 0 then .help
  else .unknown

/-- The six object keywords with the routine each one stands for. -/
def object_keywords : List (Str × Routine) :=
  [("qdisc".toList, .do_qdisc), ("class".toList, .do_class), ("filter".toList, .do_filter),
   ("actions".toList, .do_action), ("monitor".toList, .do_tcmonitor), ("exec".toList, .do_exec)]

/-- The seven keywords `tc_cmd` knows. -/
def known_keywords : List Str :=
  object_keywords.map Prod.fst ++ ["help".toList]

/-- The invocations of `tc_cmd` recorded in a trace, in order: argument
vector and returned status. -/
def dispatched : List Event → List (List Str × Int)
  | [] => []
  | .tc_cmd argv ret :: tr => (argv, ret) :: dispatched tr
  | _ :: tr => dispatched tr

/-- Reference run: `tc_cmd` on every non-blank line of a script, in order,
each command starting from the state its predecessor left; the result lists
each line with the status its command returns. -/
def run_all {σ : Type} (X : Collab σ) : σ → List (List Str) → List (List Str × Int)
  | _, [] => []
  | w, [] :: more => run_all X w more
  | w, (first :: rest) :: more =>
    (first :: rest, (tc_cmd X w first rest).ret) :: run_all X (tc_cmd X w first rest).w more

/-- The commands up to and including the first one with a non-zero status. -/
def through_first_failure : List (List Str × Int) → List (List Str × Int)
  | [] => []
  | e :: more => if e.2 ≠ 0 then [e] else e :: through_first_failure more

/-- Three commands, the second of which will fail, and a blank line. -/
def demo_script : List (List Str) :=
  [["qdisc".toList], [], ["class".toList, "fail".toList], ["filter".toList]]

/-- A collaborator set for examples: every per-object routine fails with
status 2 when its only argument is `fail` and succeeds otherwise, counting
its calls in the state; the netlink socket opens; the file `f` holds
`demo_script`; standard input holds three blank lines. -/
def demo_collab : Collab Nat where
  routine := fun _ n a => (if a = ["fail".toList] then 2 else 0, n + 1)
  rtnl_open := 0
  freopen := fun nm =>
    if nm = "f".toList then some demo_script else none
  stdin := [[], [], []]
  netns_switch := fun _ => 0
  cls_names_init := fun _ => 0

/-- Whether an event is the opening or the closing of the netlink socket. -/
def Event.is_session : Event → Bool
  | .rtnl_open _ => true
  | .rtnl_close => true
  | _ => false

/-- The openings and closings of the netlink socket in a trace, in order. -/
def lifecycle (tr : List Event) : List Event := tr.filter Event.is_session

/-- The events of the option loop, however it ended. -/
def OptResult.trace : OptResult → List Event
  | .stop _ _ tr => tr
  | .done _ _ _ tr => tr

/-- The three shapes a run may have: the socket is never touched; opening
fails and nothing is closed; opening succeeds and is followed by one close. -/
def paired (tr : List Event) : Prop :=
  lifecycle tr = [] ∨ lifecycle tr = [.rtnl_open false] ∨
    lifecycle tr = [.rtnl_open true, .rtnl_close]

/-- The events of one pass through the option loop. -/
def OptStep.trace : OptStep → List Event
  | .leave _ _ tr => tr
  | .next _ _ tr => tr
  | .next2 _ _ tr => tr

/-- The two handler families. -/
inductive Family where
  | qdisc
  | filter
  deriving DecidableEq

/-- One resolver call: which resolver, on which name, and what the loader and
the allocator answer during the call. -/
structure Req where
  family : Family
  str : Str
  env : DlEnv

/-- One resolver call of either family: the statics afterwards and the loader
calls made. -/
def resolve (st : Registry) (r : Req) : Registry × List DlEvent :=
  match r.family with
  | .qdisc => ((get_qdisc_kind r.env st r.str).st, (get_qdisc_kind r.env st r.str).trace)
  | .filter => ((get_filter_kind r.env st r.str).st, (get_filter_kind r.env st r.str).trace)

/-- The statics after a sequence of resolver calls. -/
def resolve_all : Registry → List Req → Registry
  | st, [] => st
  | st, r :: more => resolve_all (resolve st r).1 more

/-- The call finds nothing under its name in the registry of its family. -/
def is_miss (st : Registry) (r : Req) : Prop :=
  match r.family with
  | .qdisc => st.qdisc_list.find? (fun q => q.id == r.str) = none
  | .filter => st.filter_list.find? (fun q => q.id == r.str) = none

/-- File name of the extension the call tries to load. -/
def ext_path (r : Req) : Str :=
  match r.family with
  | .qdisc => snprintf_buf (r.env.tc_lib ++ "/q_".toList ++ r.str ++ ".so".toList)
  | .filter => snprintf_buf (r.env.tc_lib ++ "/f_".toList ++ r.str ++ ".so".toList)

/-- Symbol the call looks up. -/
def sym_name (r : Req) : Str :=
  match r.family with
  | .qdisc => snprintf_buf (r.str ++ "_qdisc_util".toList)
  | .filter => snprintf_buf (r.str ++ "_filter_util".toList)

instance (st : Registry) (r : Req) : Decidable (is_miss st r) := by
  unfold is_miss
  cases r.family <;> exact inferInstance

/-- What a resolver call does with the loader, in terms of the statics before
it: the shape shared by `get_qdisc_kind` and `get_filter_kind`. -/
structure LoaderUse (st : Registry) (r : Req) (st1 : Registry) (tr : List DlEvent) : Prop where
  /-- A hit makes no loader call and leaves `BODY` alone. -/
  hit : ¬ is_miss st r → tr = [] ∧ st1.BODY = st.BODY
  /-- A miss whose extension file loads looks the symbol up in that file. -/
  ext : ∀ h, is_miss st r → r.env.dlopen (some (ext_path r)) = some h →
    tr = [.dlopen_file (ext_path r) (some h), .dlsym h (sym_name r)] ∧ st1.BODY = st.BODY
  /-- A miss whose extension file does not load, with `BODY` set, looks the
  symbol up in `BODY`. -/
  cached : ∀ b, is_miss st r → r.env.dlopen (some (ext_path r)) = none → st.BODY = some b →
    tr = [.dlopen_file (ext_path r) none, .dlsym b (sym_name r)] ∧ st1.BODY = some b
  /-- A miss whose extension file does not load, with `BODY` not yet set,
  calls `dlopen(NULL)` and stores the result in `BODY`. -/
  fresh : is_miss st r → r.env.dlopen (some (ext_path r)) = none → st.BODY = none →
    st1.BODY = r.env.dlopen none ∧
    ((∃ b, r.env.dlopen none = some b ∧
        tr = [.dlopen_file (ext_path r) none, .dlopen_self (some b), .dlsym b (sym_name r)]) ∨
      (r.env.dlopen none = none ∧
        tr = [.dlopen_file (ext_path r) none, .dlopen_self none]))

/-- The loader of the examples: no extension file loads except
`/usr/lib/tc/q_bar.so` (handle 2); `dlopen(NULL)` gives handle 1; no symbol
is found anywhere; `calloc` succeeds. -/
def demo_loader : DlEnv where
  tc_lib := "/usr/lib/tc".toList
  dlopen := fun p =>
    if p = none then some 1
    else if p = some "/usr/lib/tc/q_bar.so".toList then some 2
    else none
  dlsym_qdisc := fun _ _ => none
  dlsym_filter := fun _ _ => none
  calloc_ok := true

/-- No real implementation is found for the call: every symbol lookup
answers `NULL`. -/
def stub_route (r : Req) : Prop :=
  (∀ dlh name, r.env.dlsym_qdisc dlh name = none) ∧
  (∀ dlh name, r.env.dlsym_filter dlh name = none)

/-! ## Facts about the printf conversions -/

theorem hexDigitVal_digitChar : ∀ d, d < 16 → hexDigitVal (Nat.digitChar d) = d := by
  decide

theorem digitChar_lower_hex : ∀ d, d < 16 → Nat.digitChar d ∈ "0123456789abcdef".toList := by
  decide

theorem toDigitsCore_append (b : Nat) : ∀ (f n : Nat) (ds : List Char),
    Nat.toDigitsCore b f n ds = Nat.toDigitsCore b f n [] ++ ds := by
  intro f
  induction f with
  | zero => intro n ds; simp [Nat.toDigitsCore]
  | succ f ih =>
    intro n ds
    simp only [Nat.toDigitsCore]
    by_cases h : n / b = 0
    · simp [h]
    · simp only [h, if_false]
      rw [ih (n / b) (Nat.digitChar (n % b) :: ds), ih (n / b) [Nat.digitChar (n % b)]]
      simp

theorem digitsVal_snoc (b : Nat) (s : Str) (c : Char) :
    digitsVal b (s ++ [c]) = digitsVal b s * b + hexDigitVal c := by
  simp [digitsVal]

/-- Reading back the digits written for `n` in a base between 2 and 16 gives `n`. -/
theorem digitsVal_toDigitsCore (b : Nat) (hb : 2 ≤ b) (hb16 : b ≤ 16) :
    ∀ (f n : Nat), n < f → digitsVal b (Nat.toDigitsCore b f n []) = n := by
  intro f
  induction f with
  | zero => intro n h; omega
  | succ f ih =>
    intro n hn
    simp only [Nat.toDigitsCore]
    have hd : n % b < 16 := lt_of_lt_of_le (Nat.mod_lt _ (by omega)) hb16
    have hdm := Nat.div_add_mod n b
    by_cases h : n / b = 0
    · simp only [h, if_true]
      simp only [digitsVal, List.foldl, Nat.zero_mul, Nat.zero_add]
      rw [hexDigitVal_digitChar _ hd]
      rw [h] at hdm; omega
    · simp only [h, if_false]
      have hpos : 0 < n := by
        rcases Nat.eq_zero_or_pos n with h0 | h0
        · subst h0; simp at h
        · exact h0
      have hlt : n / b < n := Nat.div_lt_self hpos (by omega)
      rw [toDigitsCore_append, digitsVal_snoc]
      rw [ih (n / b) (by omega), hexDigitVal_digitChar _ hd]
      rw [Nat.mul_comm]; exact hdm

theorem toDigitsCore_lower_hex : ∀ (f n : Nat) (c : Char),
    c ∈ Nat.toDigitsCore 16 f n [] → c ∈ "0123456789abcdef".toList := by
  intro f
  induction f with
  | zero => intro n c h; simp [Nat.toDigitsCore] at h
  | succ f ih =>
    intro n c hc
    simp only [Nat.toDigitsCore] at hc
    have hd : n % 16 < 16 := Nat.mod_lt _ (by decide)
    by_cases h : n / 16 = 0
    · simp only [h, if_true, List.mem_singleton] at hc
      subst hc; exact digitChar_lower_hex _ hd
    · simp only [h, if_false] at hc
      rw [toDigitsCore_append] at hc
      rcases List.mem_append.1 hc with h1 | h1
      · exact ih _ _ h1
      · rw [List.mem_singleton] at h1
        subst h1; exact digitChar_lower_hex _ hd

/-- The text of `%u` read back as a decimal number is the argument. -/
theorem digitsVal_fmt_u (n : Nat) : digitsVal 10 (fmt_u n) = n :=
  digitsVal_toDigitsCore 10 (by decide) (by decide) (n + 1) n (Nat.lt_succ_self n)

/-- For a 32-bit argument `%08x` writes exactly 8 characters. -/
theorem fmt_08x_length (h : Nat) (hh : h < 2 ^ 32) : (fmt_08x h).length = 8 := by
  have hl : (Nat.toDigits 16 h).length ≤ 8 :=
    Nat.toDigitsCore_length 16 (by decide) (h + 1) h 8 (by norm_num at hh ⊢; omega) (by decide)
  simp only [fmt_08x, List.leftpad_length]
  exact max_eq_left hl

/-- Every character written by `%08x` is a lower-case hexadecimal digit. -/
theorem fmt_08x_lower_hex (h : Nat) (c : Char) (hc : c ∈ fmt_08x h) :
    c ∈ "0123456789abcdef".toList := by
  simp only [fmt_08x, List.leftpad, List.mem_append] at hc
  rcases hc with h1 | h1
  · rw [List.eq_of_mem_replicate h1]; decide
  · exact toDigitsCore_lower_hex _ _ _ h1

theorem digitsVal_zeros (b k : Nat) (s : Str) :
    digitsVal b (List.replicate k '0' ++ s) = digitsVal b s := by
  induction k with
  | zero => simp
  | succ k ih =>
    have h0 : hexDigitVal '0' = 0 := by decide
    simp only [digitsVal, List.replicate_succ, List.cons_append, List.foldl_cons, h0] at ih ⊢
    simpa using ih

/-- The text of `%08x` read back as a hexadecimal number is the argument. -/
theorem digitsVal_fmt_08x (h : Nat) : digitsVal 16 (fmt_08x h) = h := by
  simp only [fmt_08x, List.leftpad, digitsVal_zeros]
  exact digitsVal_toDigitsCore 16 (by decide) (by decide) (h + 1) h (Nat.lt_succ_self h)

/-- A positive payload length survives the cast to `unsigned int`. -/
theorem to_u32_payload (o : rtattr) (n : Nat) (h : RTA_PAYLOAD o = (n : Int)) :
    to_u32 (RTA_PAYLOAD o) = n := by
  have hb : RTA_PAYLOAD o < 65536 := by
    unfold RTA_PAYLOAD
    have : o.rta_len % 2 ^ 16 < 2 ^ 16 := Nat.mod_lt _ (by norm_num)
    norm_num at this ⊢
    omega
  rw [h] at hb ⊢
  unfold to_u32
  norm_num
  omega

/-! ## The stub handlers -/

/-- C3 (stub rejects options): when `argc` is not 0, `parse_noqopt` and
`parse_nofopt` return -1 and hand back the message-build context unchanged,
its `tcm_handle` included; for the filter stub this holds for every handle
string, an absent one too, and whatever `get_u32` would answer. -/
theorem stub_parse_rejects_options (argc : Int) (hargc : argc ≠ 0) (argv : List Str)
    (n : nlmsghdr) :
    (∀ qu : qdisc_util,
      (parse_noqopt qu argc argv n).ret = -1 ∧ (parse_noqopt qu argc argv n).n = n) ∧
    (∀ (get_u32 : Str → Nat → Option Nat) (qu : filter_util) (fhandle : Option Str),
      (parse_nofopt get_u32 qu fhandle argc argv n).ret = -1 ∧
      (parse_nofopt get_u32 qu fhandle argc argv n).n = n ∧
      (parse_nofopt get_u32 qu fhandle argc argv n).n.data.tcm_handle = n.data.tcm_handle) := by
  refine ⟨fun qu => ?_, fun get_u32 qu fhandle => ?_⟩
  · simp [parse_noqopt, hargc]
  · simp [parse_nofopt, hargc]

/-- C3 at a concrete input. One option left over (`limit`) on a request whose
handle is 7: both stubs fail and the handle is still 7, even with a parsable handle string `1f`. -/
theorem stub_parse_rejects_options_witness :
    (1 : Int) ≠ 0 ∧
    (parse_noqopt ⟨.heap 0, "foo".toList, .noopt⟩ 1 ["limit".toList]
      ⟨36, 44, 1, 0, 0, ⟨0, 2, 7, 0, 0⟩, []⟩).ret = -1 ∧
    (parse_nofopt (fun _ _ => some 31) ⟨.heap 0, "foo".toList, .noopt⟩ (some "1f".toList) 1
      ["limit".toList] ⟨36, 44, 1, 0, 0, ⟨0, 2, 7, 0, 0⟩, []⟩).n.data.tcm_handle = 7 :=
  ⟨by decide,
   ((stub_parse_rejects_options 1 (by decide) ["limit".toList]
      ⟨36, 44, 1, 0, 0, ⟨0, 2, 7, 0, 0⟩, []⟩).1 ⟨.heap 0, "foo".toList, .noopt⟩).1,
   ((stub_parse_rejects_options 1 (by decide) ["limit".toList]
      ⟨36, 44, 1, 0, 0, ⟨0, 2, 7, 0, 0⟩, []⟩).2 (fun _ _ => some 31)
      ⟨.heap 0, "foo".toList, .noopt⟩ (some "1f".toList)).2.2⟩

/-- C4 (stub print output). For a blob `opt` and a 32-bit filter handle `fh`:
both stubs return 0; when the payload length is `n > 0` the qdisc stub writes
a text containing `Unknown`, `qdisc` and the decimal digits of `n`, and the
filter stub a text containing `Unknown`, `filter` and the decimal digits of
`n`; when the blob is absent or of payload length 0 the qdisc stub writes
nothing, the filter stub writes nothing if `fh = 0`, and if `fh ≠ 0` it writes
a text containing `fmt_08x fh`, which is 8 characters long, made of
lower-case hexadecimal digits, and reads back as `fh`. -/
theorem stub_print_output (qu : qdisc_util) (fu : filter_util) (opt : Option rtattr)
    (fh : Nat) (hfh : fh < 2 ^ 32) :
    ((print_noqopt qu opt).ret = 0 ∧ (print_nofopt fu opt fh).ret = 0) ∧
    (∀ (o : rtattr) (n : Nat), opt = some o → RTA_PAYLOAD o = (n : Int) → 0 < n →
      ("Unknown".toList <:+: (print_noqopt qu opt).out ∧
       "qdisc".toList <:+: (print_noqopt qu opt).out ∧
       fmt_u n <:+: (print_noqopt qu opt).out ∧
       "Unknown".toList <:+: (print_nofopt fu opt fh).out ∧
       "filter".toList <:+: (print_nofopt fu opt fh).out ∧
       fmt_u n <:+: (print_nofopt fu opt fh).out ∧
       digitsVal 10 (fmt_u n) = n)) ∧
    ((opt = none ∨ ∃ o, opt = some o ∧ RTA_PAYLOAD o = 0) →
      ((print_noqopt qu opt).out = [] ∧
       (fh = 0 → (print_nofopt fu opt fh).out = []) ∧
       (fh ≠ 0 → fmt_08x fh <:+: (print_nofopt fu opt fh).out ∧
          (fmt_08x fh).length = 8 ∧
          (∀ c ∈ fmt_08x fh, c ∈ "0123456789abcdef".toList) ∧
          digitsVal 16 (fmt_08x fh) = fh))) := by
  refine ⟨⟨?_, ?_⟩, ?_, ?_⟩
  · unfold print_noqopt; dsimp only; split <;> rfl
  · unfold print_nofopt; dsimp only; split
    · rfl
    · split <;> rfl
  · intro o n ho hn hpos
    subst ho
    have hne : RTA_PAYLOAD o ≠ 0 := by rw [hn]; exact_mod_cast (Nat.pos_iff_ne_zero.1 hpos)
    have hu := to_u32_payload o n hn
    simp only [print_noqopt, print_nofopt, hne, ne_eq, not_false_eq_true, if_true, hu]
    refine ⟨⟨"[".toList, " qdisc, optlen=".toList ++ fmt_u n ++ "] ".toList, by simp⟩,
      ⟨"[Unknown ".toList, ", optlen=".toList ++ fmt_u n ++ "] ".toList, by simp⟩,
      ⟨"[Unknown qdisc, optlen=".toList, "] ".toList, by simp⟩,
      ⟨"fh ".toList ++ fmt_08x fh ++ " [".toList,
        " filter, optlen=".toList ++ fmt_u n ++ "] ".toList, by simp⟩,
      ⟨"fh ".toList ++ fmt_08x fh ++ " [Unknown ".toList,
        ", optlen=".toList ++ fmt_u n ++ "] ".toList, by simp⟩,
      ⟨"fh ".toList ++ fmt_08x fh ++ " [Unknown filter, optlen=".toList, "] ".toList, by simp⟩,
      digitsVal_fmt_u n⟩
  · intro hz
    have hlen : (match opt with
        | some o => RTA_PAYLOAD o
        | none => (0 : Int)) = 0 := by
      rcases hz with h | ⟨o, h, h0⟩
      · subst h; rfl
      · subst h; exact h0
    refine ⟨?_, ?_, ?_⟩
    · simp only [print_noqopt, hlen]; rfl
    · intro h0
      simp only [print_nofopt, hlen, h0]; rfl
    · intro hne
      refine ⟨?_, fmt_08x_length fh hfh, fun c hc => fmt_08x_lower_hex fh c hc,
        digitsVal_fmt_08x fh⟩
      simp only [print_nofopt, hlen, hne, ne_eq, not_true_eq_false, not_false_eq_true,
        if_true, if_false]
      exact ⟨"fh ".toList, " ".toList, by simp⟩

/-- C4 at a concrete input. A blob of 8 payload bytes (`rta_len = 12`) prints `optlen=8`; an empty
blob (`rta_len = 4`) with handle `0x1a2b` prints `fh 00001a2b `. -/
theorem stub_print_output_witness :
    (0x1a2b : Nat) < 2 ^ 32 ∧ RTA_PAYLOAD ⟨12, 2⟩ = ((8 : Nat) : Int) ∧
    fmt_u 8 <:+: (print_noqopt ⟨.heap 0, "foo".toList, .noopt⟩ (some ⟨12, 2⟩)).out ∧
    (print_noqopt ⟨.heap 0, "foo".toList, .noopt⟩ (some ⟨12, 2⟩)).out =
      "[Unknown qdisc, optlen=8] ".toList ∧
    (print_nofopt ⟨.heap 0, "foo".toList, .noopt⟩ (some ⟨4, 2⟩) 0x1a2b).out =
      "fh 00001a2b ".toList ∧
    fmt_08x 0x1a2b <:+:
      (print_nofopt ⟨.heap 0, "foo".toList, .noopt⟩ (some ⟨4, 2⟩) 0x1a2b).out :=
  ⟨by decide, by decide,
   ((stub_print_output ⟨.heap 0, "foo".toList, .noopt⟩ ⟨.heap 0, "foo".toList, .noopt⟩
      (some ⟨12, 2⟩) 0x1a2b (by decide)).2.1 ⟨12, 2⟩ 8 rfl (by decide) (by decide)).2.2.1,
   by decide, by decide,
   ((stub_print_output ⟨.heap 0, "foo".toList, .noopt⟩ ⟨.heap 0, "foo".toList, .noopt⟩
      (some ⟨4, 2⟩) 0x1a2b (by decide)).2.2
      (Or.inr ⟨⟨4, 2⟩, rfl, by decide⟩)).2.2 (by decide) |>.1⟩

/-! ## The dispatcher -/

theorem matches_eq_zero_iff (a k : Str) : matches_ a k = 0 ↔ a <+: k := by
  unfold matches_
  by_cases h : a.isPrefixOf k = true
  · simp [h, List.isPrefixOf_iff_prefix.1 h]
  · have h2 : ¬ a <+: k := fun hp => h (List.isPrefixOf_iff_prefix.2 hp)
    simp [h, h2]

theorem tc_cmd_eq_route {σ : Type} (X : Collab σ) (w : σ) (first : Str) (rest : List Str) :
    tc_cmd X w first rest =
      match route first with
      | .to r => run_routine X r w rest
      | .help => ⟨0, w, [.tc_usage]⟩
      | .unknown => ⟨-1, w, [.unknown_object first]⟩ := by
  unfold tc_cmd route
  split_ifs <;> rfl

theorem route_prefix_table :
    ∀ kr ∈ object_keywords, ∀ p ∈ kr.1.inits, p ≠ [] → route p = .to kr.2 := by
  decide

theorem route_help_table : ∀ p ∈ "help".toList.inits, p ≠ [] → route p = .help := by
  decide

/-- C5 (dispatcher prefix matching): for each of the six object keywords `kw`
with its routine `r`, and every non-empty prefix `p` of `kw`, `tc_cmd` on
`p` enters `r` and nothing else, with the remaining arguments, returns what
`r` returns, and is the same run as `tc_cmd` on the full keyword. -/
theorem dispatcher_prefix_matching {σ : Type} (X : Collab σ) (w : σ) (kw : Str) (r : Routine)
    (hkw : (kw, r) ∈ object_keywords) (p : Str) (hp : p ≠ []) (hpre : p <+: kw)
    (rest : List Str) :
    (tc_cmd X w p rest).trace = [.call r rest] ∧
    (tc_cmd X w p rest).ret = (X.routine r w rest).1 ∧
    (tc_cmd X w p rest).w = (X.routine r w rest).2 ∧
    tc_cmd X w p rest = tc_cmd X w kw rest := by
  have h1 : route p = .to r :=
    route_prefix_table (kw, r) hkw p ((List.mem_inits p kw).2 hpre) hp
  have hne : kw ≠ [] := by
    intro h; subst h
    exact hp (List.prefix_nil.1 hpre)
  have h2 : route kw = .to r :=
    route_prefix_table (kw, r) hkw kw ((List.mem_inits kw kw).2 (List.prefix_refl kw)) hne
  rw [tc_cmd_eq_route X w p, tc_cmd_eq_route X w kw, h1, h2]
  exact ⟨rfl, rfl, rfl, rfl⟩

/-- C5 at a concrete input. The abbreviation `mon` runs `do_tcmonitor` on the remaining `file x`. -/
theorem dispatcher_prefix_matching_witness :
    ("monitor".toList, Routine.do_tcmonitor) ∈ object_keywords ∧ "mon".toList ≠ [] ∧
    "mon".toList <+: "monitor".toList ∧
    (tc_cmd (⟨fun _ n a => (a.length, n + 1), 0, fun _ => none, [], fun _ => 0, fun _ => 0⟩ :
        Collab Nat) 5 "mon".toList ["file".toList, "x".toList]).trace =
      [.call .do_tcmonitor ["file".toList, "x".toList]] :=
  ⟨by decide, by decide, by decide,
   (dispatcher_prefix_matching
      (⟨fun _ n a => (a.length, n + 1), 0, fun _ => none, [], fun _ => 0, fun _ => 0⟩ :
        Collab Nat)
      5 "monitor".toList .do_tcmonitor (by decide) "mon".toList (by decide) (by decide)
      ["file".toList, "x".toList]).1⟩

/-- C9 (unknown object is a user error): a first argument that is a prefix of
none of the seven keywords makes `tc_cmd` return -1 without entering any
per-object routine (it only reports the unknown object); a non-empty prefix
of `help` makes it return 0 without entering any per-object routine (it only
prints the usage text). -/
theorem unknown_object_is_error {σ : Type} (X : Collab σ) (w : σ) (first : Str)
    (rest : List Str) :
    ((∀ k ∈ known_keywords, ¬ first <+: k) →
      (tc_cmd X w first rest).ret = -1 ∧
      (tc_cmd X w first rest).trace = [.unknown_object first] ∧
      (∀ r a, Event.call r a ∉ (tc_cmd X w first rest).trace) ∧
      (tc_cmd X w first rest).w = w) ∧
    (first ≠ [] → first <+: "help".toList →
      (tc_cmd X w first rest).ret = 0 ∧
      (tc_cmd X w first rest).trace = [.tc_usage] ∧
      (∀ r a, Event.call r a ∉ (tc_cmd X w first rest).trace) ∧
      (tc_cmd X w first rest).w = w) := by
  constructor
  · intro h
    have hr : route first = .unknown := by
      have hm : ∀ k ∈ known_keywords, matches_ first k ≠ 0 :=
        fun k hk hz => h k hk ((matches_eq_zero_iff first k).1 hz)
      simp only [known_keywords, object_keywords, List.map, List.cons_append, List.nil_append,
        List.mem_cons, List.mem_singleton, forall_eq_or_imp, forall_eq] at hm
      obtain ⟨h1, h2, h3, h4, h5, h6, h7, -⟩ := hm
      unfold route
      rw [if_neg h1, if_neg h2, if_neg h3, if_neg h4, if_neg h5, if_neg h6, if_neg h7]
    rw [tc_cmd_eq_route, hr]
    simp
  · intro hne hpre
    have hr : route first = .help :=
      route_help_table first ((List.mem_inits first _).2 hpre) hne
    rw [tc_cmd_eq_route, hr]
    simp

/-- C9 at a concrete input. The object `link` is unknown to `tc`; `he` abbreviates `help`. -/
theorem unknown_object_is_error_witness :
    (∀ k ∈ known_keywords, ¬ "link".toList <+: k) ∧
    (tc_cmd (⟨fun _ n a => (a.length, n + 1), 0, fun _ => none, [], fun _ => 0, fun _ => 0⟩ :
        Collab Nat) 5 "link".toList ["show".toList]).ret = -1 ∧
    "he".toList ≠ [] ∧ "he".toList <+: "help".toList ∧
    (tc_cmd (⟨fun _ n a => (a.length, n + 1), 0, fun _ => none, [], fun _ => 0, fun _ => 0⟩ :
        Collab Nat) 5 "he".toList []).ret = 0 :=
  ⟨by decide,
   ((unknown_object_is_error
      (⟨fun _ n a => (a.length, n + 1), 0, fun _ => none, [], fun _ => 0, fun _ => 0⟩ :
        Collab Nat)
      5 "link".toList ["show".toList]).1 (by decide)).1,
   by decide, by decide,
   ((unknown_object_is_error
      (⟨fun _ n a => (a.length, n + 1), 0, fun _ => none, [], fun _ => 0, fun _ => 0⟩ :
        Collab Nat)
      5 "he".toList []).2 (by decide) (by decide)).1⟩

/-! ## The batch engine -/

theorem dispatched_append (a b : List Event) :
    dispatched (a ++ b) = dispatched a ++ dispatched b := by
  induction a with
  | nil => rfl
  | cons e a ih => cases e <;> simp [dispatched, ih]

theorem dispatched_tc_cmd {σ : Type} (X : Collab σ) (w : σ) (first : Str) (rest : List Str) :
    dispatched (tc_cmd X w first rest).trace = [] := by
  rw [tc_cmd_eq_route]
  cases route first <;> rfl

theorem run_all_lines {σ : Type} (X : Collab σ) : ∀ (lines : List (List Str)) (w : σ),
    (run_all X w lines).map Prod.fst = lines.filter (fun l => decide (l ≠ [])) := by
  intro lines
  induction lines with
  | nil => intro w; rfl
  | cons l more ih =>
    intro w
    cases l with
    | nil => simpa [run_all] using ih w
    | cons first rest => simp [run_all, ih]

theorem batch_loop_force {σ : Type} (X : Collab σ) (force : Int) (hf : force ≠ 0)
    (name : Option Str) : ∀ (lines : List (List Str)) (no : Nat) (ret : Int) (w : σ),
    dispatched (batch_loop X force name lines no ret w).trace = run_all X w lines := by
  intro lines
  induction lines with
  | nil => intro no ret w; rfl
  | cons l more ih =>
    intro no ret w
    cases l with
    | nil => simpa [batch_loop, run_all] using ih (no + 1) ret w
    | cons first rest =>
      simp only [batch_loop, run_all]
      split_ifs with h1
      · simp [dispatched, dispatched_append, dispatched_tc_cmd, ih]
      · simp [dispatched, dispatched_append, dispatched_tc_cmd, ih]

theorem batch_loop_abort {σ : Type} (X : Collab σ) (name : Option Str) :
    ∀ (lines : List (List Str)) (no : Nat) (ret : Int) (w : σ),
    dispatched (batch_loop X 0 name lines no ret w).trace =
      through_first_failure (run_all X w lines) := by
  intro lines
  induction lines with
  | nil => intro no ret w; rfl
  | cons l more ih =>
    intro no ret w
    cases l with
    | nil => simpa [batch_loop, run_all] using ih (no + 1) ret w
    | cons first rest =>
      simp only [batch_loop, run_all, through_first_failure]
      split_ifs with h1
      · simp [dispatched, dispatched_append, dispatched_tc_cmd]
      · simp [dispatched, dispatched_append, dispatched_tc_cmd, ih]

/-- The local `ret` of `batch` after the loop: 1 as soon as one dispatched
command returned non-zero, else the value it had on entry. -/
theorem batch_loop_ret {σ : Type} (X : Collab σ) (force : Int) (name : Option Str) :
    ∀ (lines : List (List Str)) (no : Nat) (ret : Int) (w : σ),
    ((∃ e ∈ dispatched (batch_loop X force name lines no ret w).trace, e.2 ≠ 0) →
      (batch_loop X force name lines no ret w).ret = 1) ∧
    ((∀ e ∈ dispatched (batch_loop X force name lines no ret w).trace, e.2 = 0) →
      (batch_loop X force name lines no ret w).ret = ret) := by
  intro lines
  induction lines with
  | nil => intro no ret w; simp [batch_loop, dispatched]
  | cons l more ih =>
    intro no ret w
    cases l with
    | nil =>
      simp only [batch_loop]
      exact ih (no + 1) ret w
    | cons first rest =>
      simp only [batch_loop]
      split_ifs with h1 h2
      · simp [dispatched, dispatched_append, dispatched_tc_cmd, h1]
      · have ih1 := ih (no + 1) 1 (tc_cmd X w first rest).w
        simp only [dispatched, dispatched_append, dispatched_tc_cmd, List.nil_append,
          List.append_eq, List.cons_append, List.mem_cons, exists_eq_or_imp, forall_eq_or_imp]
        refine ⟨fun _ => ?_, fun h => absurd h.1 h1⟩
        by_cases hx : ∃ e ∈ dispatched
            (batch_loop X force name more (no + 1) 1 (tc_cmd X w first rest).w).trace, e.2 ≠ 0
        · exact ih1.1 hx
        · exact ih1.2 (by simpa using hx)
      · have ih1 := ih (no + 1) ret (tc_cmd X w first rest).w
        have h0 : (tc_cmd X w first rest).ret = 0 := not_not.1 h1
        simp only [dispatched, dispatched_append, dispatched_tc_cmd, List.nil_append,
          List.append_eq, List.cons_append, List.mem_cons, exists_eq_or_imp, forall_eq_or_imp, h0]
        refine ⟨fun h => ?_, fun h => ih1.2 h.2⟩
        rcases h with h | h
        · exact absurd rfl h
        · exact ih1.1 h

theorem tc_init_ok {σ : Type} (X : Collab σ) (h : 0 ≤ X.rtnl_open) :
    tc_init X = (true, [.tc_core_init, .rtnl_open true]) := by
  unfold tc_init
  rw [if_neg (not_lt.2 h)]

theorem batch_ok {σ : Type} (X : Collab σ) (g : Globals) (w : σ) (name : Option Str)
    (script : List (List Str)) (hsrc : batch_input X name = some script)
    (hopen : 0 ≤ X.rtnl_open) :
    batch X g w name =
      ⟨.returned (batch_loop X g.force name script 0 0 w).ret, { g with batch_mode := 1 },
        (batch_loop X g.force name script 0 0 w).w,
        [.tc_core_init, .rtnl_open true] ++ (batch_loop X g.force name script 0 0 w).trace ++
          [.rtnl_close]⟩ := by
  simp only [batch, hsrc, tc_init_ok X hopen, tc_exit]

theorem batch_loop_blank {σ : Type} (X : Collab σ) (force : Int) (name : Option Str) :
    ∀ (lines : List (List Str)) (no : Nat) (ret : Int) (w : σ), (∀ l ∈ lines, l = []) →
    batch_loop X force name lines no ret w = ⟨ret, w, []⟩ := by
  intro lines
  induction lines with
  | nil => intro no ret w _; rfl
  | cons l more ih =>
    intro no ret w h
    have hl : l = [] := h l (List.mem_cons_self _ _)
    subst hl
    simp only [batch_loop]
    exact ih (no + 1) ret w (fun l hl => h l (List.mem_cons_of_mem _ hl))

/-- C2 (batch abort policy). When the batch source opens to `script` and the
netlink socket opens: with `force = 0`, `batch` dispatches the non-blank
lines up to and including the first one whose command fails and none after
it; with `force ≠ 0` it dispatches every non-blank line, in order; and in
both cases it returns 1 if some dispatched command returned non-zero and 0 if
every dispatched command returned 0. -/
theorem batch_abort_policy {σ : Type} (X : Collab σ) (g : Globals) (w : σ)
    (name : Option Str) (script : List (List Str))
    (hsrc : batch_input X name = some script) (hopen : 0 ≤ X.rtnl_open) :
    (g.force = 0 →
      dispatched (batch X g w name).trace = through_first_failure (run_all X w script)) ∧
    (g.force ≠ 0 → dispatched (batch X g w name).trace = run_all X w script) ∧
    (run_all X w script).map Prod.fst = script.filter (fun l => decide (l ≠ [])) ∧
    ((∃ e ∈ dispatched (batch X g w name).trace, e.2 ≠ 0) →
      (batch X g w name).status = .returned 1) ∧
    ((∀ e ∈ dispatched (batch X g w name).trace, e.2 = 0) →
      (batch X g w name).status = .returned 0) := by
  have hd : dispatched (batch X g w name).trace =
      dispatched (batch_loop X g.force name script 0 0 w).trace := by
    rw [batch_ok X g w name script hsrc hopen]
    simp [dispatched_append, dispatched]
  have hs : (batch X g w name).status =
      .returned (batch_loop X g.force name script 0 0 w).ret := by
    rw [batch_ok X g w name script hsrc hopen]
  have hr := batch_loop_ret X g.force name script 0 0 w
  refine ⟨fun hf => ?_, fun hf => ?_, run_all_lines X script w, fun h => ?_, fun h => ?_⟩
  · rw [hd, hf]; exact batch_loop_abort X name script 0 0 w
  · rw [hd]; exact batch_loop_force X g.force hf name script 0 0 w
  · rw [hs, hr.1 (by rw [← hd]; exact h)]
  · rw [hs, hr.2 (by rw [← hd]; exact h)]

/-- C2 at a concrete input. The three-command script whose second command fails: without `-force`
the first two commands run, with `-force` all three; the status is 1 both
times. -/
theorem batch_abort_policy_witness :
    batch_input demo_collab (some "f".toList) = some demo_script ∧
    0 ≤ demo_collab.rtnl_open ∧
    dispatched (batch demo_collab Globals.init 0 (some "f".toList)).trace =
      [(["qdisc".toList], 0), (["class".toList, "fail".toList], 2)] ∧
    (batch demo_collab Globals.init 0 (some "f".toList)).status = .returned 1 ∧
    dispatched (batch demo_collab { Globals.init with force := 1 } 0 (some "f".toList)).trace =
      [(["qdisc".toList], 0), (["class".toList, "fail".toList], 2), (["filter".toList], 0)] ∧
    (batch demo_collab { Globals.init with force := 1 } 0 (some "f".toList)).status =
      .returned 1 :=
  ⟨by decide, by decide,
   ((batch_abort_policy demo_collab Globals.init 0 (some "f".toList) demo_script (by decide)
      (by decide)).1 (by decide)).trans (by decide),
   (batch_abort_policy demo_collab Globals.init 0 (some "f".toList) demo_script (by decide)
      (by decide)).2.2.2.1 (by decide),
   ((batch_abort_policy demo_collab { Globals.init with force := 1 } 0 (some "f".toList)
      demo_script (by decide) (by decide)).2.1 (by decide)).trans (by decide),
   (batch_abort_policy demo_collab { Globals.init with force := 1 } 0 (some "f".toList)
      demo_script (by decide) (by decide)).2.2.2.1 (by decide)⟩

/-- C8 (blank-line skipping). When the batch source opens to a script all of
whose lines tokenize to zero arguments (an empty script included) and the
netlink socket opens, `batch` never enters `tc_cmd` nor any per-object
routine and returns 0, whatever the value of `force`; all it does is open and
close the session. -/
theorem blank_lines_skipped {σ : Type} (X : Collab σ) (g : Globals) (w : σ)
    (name : Option Str) (script : List (List Str))
    (hsrc : batch_input X name = some script) (hopen : 0 ≤ X.rtnl_open)
    (hblank : ∀ l ∈ script, l = []) :
    dispatched (batch X g w name).trace = [] ∧
    (∀ r a, Event.call r a ∉ (batch X g w name).trace) ∧
    (batch X g w name).status = .returned 0 ∧
    (batch X g w name).trace = [.tc_core_init, .rtnl_open true, .rtnl_close] ∧
    (batch X g w name).w = w := by
  rw [batch_ok X g w name script hsrc hopen,
    batch_loop_blank X g.force name script 0 0 w hblank]
  simp [dispatched]

/-- C8 at a concrete input. Three blank lines on standard input (`-batch -`),
with `-force` given. -/
theorem blank_lines_skipped_witness :
    batch_input demo_collab (some "-".toList) = some [[], [], []] ∧
    0 ≤ demo_collab.rtnl_open ∧ (∀ l ∈ ([[], [], []] : List (List Str)), l = []) ∧
    dispatched (batch demo_collab { Globals.init with force := 1 } 0 (some "-".toList)).trace
      = [] ∧
    (batch demo_collab { Globals.init with force := 1 } 0 (some "-".toList)).status =
      .returned 0 :=
  ⟨by decide, by decide, by decide,
   (blank_lines_skipped demo_collab { Globals.init with force := 1 } 0 (some "-".toList)
      [[], [], []] (by decide) (by decide) (by decide)).1,
   (blank_lines_skipped demo_collab { Globals.init with force := 1 } 0 (some "-".toList)
      [[], [], []] (by decide) (by decide) (by decide)).2.2.1⟩

/-! ## Session lifecycle -/

theorem lifecycle_append (a b : List Event) :
    lifecycle (a ++ b) = lifecycle a ++ lifecycle b := by
  simp [lifecycle]

theorem lifecycle_nil : lifecycle [] = [] := rfl

theorem lifecycle_cons (e : Event) (tr : List Event) :
    lifecycle (e :: tr) = if e.is_session then e :: lifecycle tr else lifecycle tr := by
  simp only [lifecycle, List.filter_cons]

theorem lifecycle_tc_cmd {σ : Type} (X : Collab σ) (w : σ) (first : Str) (rest : List Str) :
    lifecycle (tc_cmd X w first rest).trace = [] := by
  rw [tc_cmd_eq_route]
  cases route first <;> rfl

theorem lifecycle_batch_loop {σ : Type} (X : Collab σ) (force : Int) (name : Option Str) :
    ∀ (lines : List (List Str)) (no : Nat) (ret : Int) (w : σ),
    lifecycle (batch_loop X force name lines no ret w).trace = [] := by
  intro lines
  induction lines with
  | nil => intro no ret w; rfl
  | cons l more ih =>
    intro no ret w
    cases l with
    | nil =>
      simp only [batch_loop]
      exact ih (no + 1) ret w
    | cons first rest =>
      have h1 := lifecycle_tc_cmd X w first rest
      simp only [batch_loop]
      split_ifs
      · simp only [List.cons_append, lifecycle, List.filter_cons, Event.is_session,
          List.filter_append] at h1 ⊢
        simp [h1]
      · have h2 := ih (no + 1) 1 (tc_cmd X w first rest).w
        simp only [List.cons_append, List.append_eq, lifecycle, List.filter_cons,
          Event.is_session, List.filter_append] at h1 h2 ⊢
        simp [h1, h2]
      · have h2 := ih (no + 1) ret (tc_cmd X w first rest).w
        simp only [List.cons_append, List.append_eq, lifecycle, List.filter_cons,
          Event.is_session, List.filter_append] at h1 h2 ⊢
        simp [h1, h2]

theorem lifecycle_tc_init {σ : Type} (X : Collab σ) :
    tc_init X = (false, [.tc_core_init, .rtnl_open false, .cannot_open_rtnetlink]) ∨
    tc_init X = (true, [.tc_core_init, .rtnl_open true]) := by
  unfold tc_init
  split_ifs
  · exact Or.inl rfl
  · exact Or.inr rfl

theorem paired_batch {σ : Type} (X : Collab σ) (g : Globals) (w : σ) (name : Option Str)
    (pre : List Event) (hpre : lifecycle pre = []) :
    paired (pre ++ (batch X g w name).trace) := by
  unfold paired
  rw [lifecycle_append, hpre, List.nil_append]
  unfold batch
  dsimp only
  cases hsrc : batch_input X name with
  | none => left; rfl
  | some lines =>
    rcases lifecycle_tc_init X with h | h
    · right; left; simp only [h]; rfl
    · right; right
      simp only [h, lifecycle_append, lifecycle_batch_loop, tc_exit]
      rfl

theorem ite_ind {α : Type} (P : α → Prop) (c : Prop) [Decidable c] (a b : α)
    (ha : P a) (hb : P b) : P (if c then a else b) := by
  split <;> assumption

theorem lifecycle_main_opt {σ : Type} (X : Collab σ) (g : Globals) (bf : Option Str)
    (tr : List Event) (opt : Str) (rest : List Str) :
    lifecycle (main_opt X g bf tr opt rest).trace = lifecycle tr := by
  unfold main_opt
  repeat' apply ite_ind (fun s : OptStep => lifecycle s.trace = lifecycle tr)
  all_goals simp only [OptStep.trace]
  all_goals first
    | rfl
    | (split <;> simp [lifecycle_append, lifecycle, Event.is_session])
    | simp [lifecycle_append, lifecycle, Event.is_session]

theorem lifecycle_main_opts_aux {σ : Type} (X : Collab σ) (argv : List Str) :
    (∀ (g : Globals) (bf : Option Str) (tr : List Event),
      lifecycle (main_opts X g bf tr argv).trace = lifecycle tr) ∧
    (∀ (a : Str) (g : Globals) (bf : Option Str) (tr : List Event),
      lifecycle (main_opts X g bf tr (a :: argv)).trace = lifecycle tr) := by
  induction argv with
  | nil => exact ⟨fun g bf tr => rfl, fun a g bf tr => rfl⟩
  | cons opt rest ih =>
    refine ⟨fun g bf tr => ih.2 opt g bf tr, fun a g bf tr => ?_⟩
    have ihA := ih.2 opt
    have ihB := ih.1
    have hstep := lifecycle_main_opt X g bf tr opt rest
    rw [main_opts]
    split_ifs
    · rfl
    · cases hm : main_opt X g bf tr opt rest with
      | leave status g1 tr1 => rw [hm] at hstep; exact hstep
      | next g1 bf1 tr1 =>
        rw [hm] at hstep
        simp only []
        rw [ihA]; exact hstep
      | next2 g1 bf1 tr1 =>
        rw [hm] at hstep
        simp only []
        rw [ihB]; exact hstep

/-- The option loop of `main` neither opens nor closes the netlink socket. -/
theorem lifecycle_main_opts {σ : Type} (X : Collab σ) (argv : List Str) (g : Globals)
    (bf : Option Str) (tr : List Event) :
    lifecycle (main_opts X g bf tr argv).trace = lifecycle tr :=
  (lifecycle_main_opts_aux X argv).1 g bf tr

theorem paired_main_rest {σ : Type} (X : Collab σ) (w : σ) (r : OptResult)
    (hr : lifecycle r.trace = []) : paired (main_rest X w r).trace := by
  cases r with
  | stop status g tr => exact Or.inl hr
  | done g bf argv tr =>
    simp only [OptResult.trace] at hr
    cases bf with
    | some f => exact paired_batch X g w (some f) tr hr
    | none =>
      have husage : paired (tr ++ [Event.tc_usage]) := by
        left; rw [lifecycle_append, hr]; rfl
      match argv with
      | [] => exact husage
      | [_] => exact husage
      | _ :: first :: rest =>
        unfold paired
        simp only [main_rest]
        rcases lifecycle_tc_init X with h | h
        · right; left
          simp only [h, lifecycle_append, hr]
          rfl
        · right; right
          simp only [h]
          split_ifs <;>
            simp [lifecycle_append, lifecycle_cons, lifecycle_nil, Event.is_session, hr,
              lifecycle_tc_cmd, tc_exit]

/-- C6 (lifecycle pairing). Whatever the command line and whatever the
collaborators answer, the openings and closings of the netlink socket during
`main` are one of: none at all; one failed `rtnl_open` and no close (the
process ends in `exit(1)`); one successful `rtnl_open` followed by exactly one
`rtnl_close`. The per-object routines, the tokenizer and `getcmdline` are
taken to return to their caller. -/
theorem lifecycle_pairing {σ : Type} (X : Collab σ) (w : σ) (argv : List Str) :
    lifecycle (main X w argv).trace = [] ∨
    lifecycle (main X w argv).trace = [.rtnl_open false] ∨
    lifecycle (main X w argv).trace = [.rtnl_open true, .rtnl_close] :=
  paired_main_rest X w (main_opts X Globals.init none [] argv)
    (lifecycle_main_opts X argv Globals.init none [])

/-! ## The cached in-process handle -/

theorem open_handle_cases (E : DlEnv) (st : Registry) (path : Str) :
    (∃ h, E.dlopen (some path) = some h ∧
      open_handle E st path = (some h, st, [.dlopen_file path (some h)])) ∨
    (∃ b, E.dlopen (some path) = none ∧ st.BODY = some b ∧
      open_handle E st path = (some b, st, [.dlopen_file path none])) ∨
    (E.dlopen (some path) = none ∧ st.BODY = none ∧
      open_handle E st path =
        (E.dlopen none, { st with BODY := E.dlopen none },
          [.dlopen_file path none, .dlopen_self (E.dlopen none)])) := by
  unfold open_handle
  cases h1 : E.dlopen (some path) with
  | some h => left; exact ⟨h, rfl, rfl⟩
  | none =>
    cases h2 : st.BODY with
    | some b => right; left; exact ⟨b, rfl, rfl, rfl⟩
    | none => right; right; exact ⟨rfl, rfl, rfl⟩

theorem qdisc_noexist_loader (E : DlEnv) (st : Registry) (str : Str) (tr : List DlEvent) :
    (qdisc_noexist E st str tr).trace = tr ∧ (qdisc_noexist E st str tr).st.BODY = st.BODY := by
  unfold qdisc_noexist
  split <;> exact ⟨rfl, rfl⟩

theorem filter_noexist_loader (E : DlEnv) (st : Registry) (str : Str) (tr : List DlEvent) :
    (filter_noexist E st str tr).trace = tr ∧ (filter_noexist E st str tr).st.BODY = st.BODY := by
  unfold filter_noexist
  split <;> exact ⟨rfl, rfl⟩

theorem get_qdisc_kind_hit (E : DlEnv) (st : Registry) (str : Str) (q : qdisc_util)
    (h : st.qdisc_list.find? (fun q => q.id == str) = some q) :
    get_qdisc_kind E st str = ⟨some q, st, []⟩ := by
  unfold get_qdisc_kind
  rw [h]

theorem get_filter_kind_hit (E : DlEnv) (st : Registry) (str : Str) (q : filter_util)
    (h : st.filter_list.find? (fun q => q.id == str) = some q) :
    get_filter_kind E st str = ⟨some q, st, []⟩ := by
  unfold get_filter_kind
  rw [h]

/-- On a miss, the loader calls of `get_qdisc_kind` are those of
`open_handle`, followed by one `dlsym` when a handle was obtained; `BODY` is
what `open_handle` left. -/
theorem get_qdisc_kind_miss (E : DlEnv) (st : Registry) (str : Str)
    (h : st.qdisc_list.find? (fun q => q.id == str) = none) :
    (get_qdisc_kind E st str).st.BODY =
      (open_handle E st
        (snprintf_buf (E.tc_lib ++ "/q_".toList ++ str ++ ".so".toList))).2.1.BODY ∧
    (get_qdisc_kind E st str).trace =
      (open_handle E st (snprintf_buf (E.tc_lib ++ "/q_".toList ++ str ++ ".so".toList))).2.2 ++
      (match (open_handle E st
          (snprintf_buf (E.tc_lib ++ "/q_".toList ++ str ++ ".so".toList))).1 with
        | some dlh => [.dlsym dlh (snprintf_buf (str ++ "_qdisc_util".toList))]
        | none => []) := by
  unfold get_qdisc_kind
  rw [h]
  dsimp only
  rcases hoh : open_handle E st (snprintf_buf (E.tc_lib ++ "/q_".toList ++ str ++ ".so".toList))
    with ⟨dlh, st1, tr⟩
  cases dlh with
  | none =>
    have := qdisc_noexist_loader E st1 str tr
    simpa using ⟨this.2, this.1⟩
  | some dlh =>
    dsimp only
    cases hs : E.dlsym_qdisc dlh (snprintf_buf (str ++ "_qdisc_util".toList)) with
    | none =>
      have := qdisc_noexist_loader E st1 str
        (tr ++ [.dlsym dlh (snprintf_buf (str ++ "_qdisc_util".toList))])
      exact ⟨this.2, this.1⟩
    | some q => exact ⟨rfl, rfl⟩

/-- The same for `get_filter_kind`. -/
theorem get_filter_kind_miss (E : DlEnv) (st : Registry) (str : Str)
    (h : st.filter_list.find? (fun q => q.id == str) = none) :
    (get_filter_kind E st str).st.BODY =
      (open_handle E st
        (snprintf_buf (E.tc_lib ++ "/f_".toList ++ str ++ ".so".toList))).2.1.BODY ∧
    (get_filter_kind E st str).trace =
      (open_handle E st (snprintf_buf (E.tc_lib ++ "/f_".toList ++ str ++ ".so".toList))).2.2 ++
      (match (open_handle E st
          (snprintf_buf (E.tc_lib ++ "/f_".toList ++ str ++ ".so".toList))).1 with
        | some dlh => [.dlsym dlh (snprintf_buf (str ++ "_filter_util".toList))]
        | none => []) := by
  unfold get_filter_kind
  rw [h]
  dsimp only
  rcases hoh : open_handle E st (snprintf_buf (E.tc_lib ++ "/f_".toList ++ str ++ ".so".toList))
    with ⟨dlh, st1, tr⟩
  cases dlh with
  | none =>
    have := filter_noexist_loader E st1 str tr
    simpa using ⟨this.2, this.1⟩
  | some dlh =>
    dsimp only
    cases hs : E.dlsym_filter dlh (snprintf_buf (str ++ "_filter_util".toList)) with
    | none =>
      have := filter_noexist_loader E st1 str
        (tr ++ [.dlsym dlh (snprintf_buf (str ++ "_filter_util".toList))])
      exact ⟨this.2, this.1⟩
    | some q => exact ⟨rfl, rfl⟩

/-- The loader calls of one resolver call, given as `open_handle` on the
extension path followed by the symbol lookup. -/
theorem resolve_miss (st : Registry) (r : Req) (h : is_miss st r) :
    (resolve st r).1.BODY = (open_handle r.env st (ext_path r)).2.1.BODY ∧
    (resolve st r).2 = (open_handle r.env st (ext_path r)).2.2 ++
      (match (open_handle r.env st (ext_path r)).1 with
        | some dlh => [.dlsym dlh (sym_name r)]
        | none => []) := by
  obtain ⟨fam, str, E⟩ := r
  cases fam with
  | qdisc => exact get_qdisc_kind_miss E st str h
  | filter => exact get_filter_kind_miss E st str h

theorem resolve_hit (st : Registry) (r : Req) (h : ¬ is_miss st r) :
    (resolve st r).2 = [] ∧ (resolve st r).1 = st := by
  obtain ⟨fam, str, E⟩ := r
  cases fam with
  | qdisc =>
    simp only [is_miss] at h
    cases hf : st.qdisc_list.find? (fun q => q.id == str) with
    | none => exact absurd hf h
    | some q => simp only [resolve, get_qdisc_kind_hit E st str q hf, and_self]
  | filter =>
    simp only [is_miss] at h
    cases hf : st.filter_list.find? (fun q => q.id == str) with
    | none => exact absurd hf h
    | some q => simp only [resolve, get_filter_kind_hit E st str q hf, and_self]

theorem loader_use (st : Registry) (r : Req) :
    LoaderUse st r (resolve st r).1 (resolve st r).2 := by
  constructor
  · intro h
    have := resolve_hit st r h
    exact ⟨this.1, by rw [this.2]⟩
  · intro h hm he
    have hr := resolve_miss st r hm
    rcases open_handle_cases r.env st (ext_path r) with
      ⟨h1, e1, e2⟩ | ⟨b, e1, _, _⟩ | ⟨e1, _, _⟩
    · rw [e1] at he
      cases he
      rw [e2] at hr
      exact ⟨hr.2, hr.1⟩
    · rw [e1] at he; cases he
    · rw [e1] at he; cases he
  · intro b hm he hb
    have hr := resolve_miss st r hm
    rcases open_handle_cases r.env st (ext_path r) with ⟨h1, e1, _⟩ | ⟨b1, _, e2, e3⟩ | ⟨_, e2, _⟩
    · rw [e1] at he; cases he
    · rw [e2] at hb
      cases hb
      rw [e3] at hr
      exact ⟨hr.2, hr.1.trans e2⟩
    · rw [e2] at hb; cases hb
  · intro hm he hb
    have hr := resolve_miss st r hm
    rcases open_handle_cases r.env st (ext_path r) with ⟨h1, e1, _⟩ | ⟨b1, _, e2, _⟩ | ⟨_, _, e3⟩
    · rw [e1] at he; cases he
    · rw [e2] at hb; cases hb
    · rw [e3] at hr
      refine ⟨hr.1, ?_⟩
      cases hd : r.env.dlopen none with
      | none => right; refine ⟨rfl, ?_⟩; rw [hr.2, hd]; rfl
      | some b => left; refine ⟨b, rfl, ?_⟩; rw [hr.2, hd]; rfl

/-- Once `BODY` is set, a resolver call leaves it as it is. -/
theorem body_kept (st : Registry) (r : Req) (b : Nat) (hb : st.BODY = some b) :
    (resolve st r).1.BODY = some b := by
  have L := loader_use st r
  by_cases hm : is_miss st r
  · cases he : r.env.dlopen (some (ext_path r)) with
    | some h => rw [(L.ext h hm he).2, hb]
    | none => exact (L.cached b hm he hb).2
  · rw [(L.hit hm).2, hb]

theorem body_kept_all (b : Nat) : ∀ (reqs : List Req) (st : Registry), st.BODY = some b →
    (resolve_all st reqs).BODY = some b := by
  intro reqs
  induction reqs with
  | nil => intro st h; exact h
  | cons r more ih => intro st h; exact ih _ (body_kept st r b h)

/-- With `BODY` set, a resolver call does not call `dlopen(NULL)`. -/
theorem no_self_open (st : Registry) (r : Req) (b : Nat) (hb : st.BODY = some b)
    (res : Option Nat) : DlEvent.dlopen_self res ∉ (resolve st r).2 := by
  have L := loader_use st r
  by_cases hm : is_miss st r
  · cases he : r.env.dlopen (some (ext_path r)) with
    | some h => rw [(L.ext h hm he).1]; simp
    | none => rw [(L.cached b hm he hb).1]; simp
  · rw [(L.hit hm).1]; simp

/-- A call of `dlopen(NULL)` happens only on a miss whose extension file did
not load and with `BODY` still `NULL`; its result is what `BODY` holds
afterwards. -/
theorem self_open_only (st : Registry) (r : Req) (res : Option Nat)
    (h : DlEvent.dlopen_self res ∈ (resolve st r).2) :
    is_miss st r ∧ r.env.dlopen (some (ext_path r)) = none ∧ st.BODY = none ∧
      (resolve st r).1.BODY = res := by
  have L := loader_use st r
  by_cases hm : is_miss st r
  · cases he : r.env.dlopen (some (ext_path r)) with
    | some h1 => rw [(L.ext h1 hm he).1] at h; simp at h
    | none =>
      cases hb : st.BODY with
      | some b => exact absurd h (no_self_open st r b hb res)
      | none =>
        refine ⟨hm, rfl, rfl, ?_⟩
        have hf := L.fresh hm he hb
        rcases hf.2 with ⟨b, e1, e2⟩ | ⟨e1, e2⟩
        · rw [e2] at h
          simp at h
          rw [hf.1, e1, h]
        · rw [e2] at h
          simp at h
          rw [hf.1, e1, h]
  · rw [(L.hit hm).1] at h; simp at h

/-- C10, as amended (the in-process handle is opened lazily and at most once).
At any point of any sequence of resolver calls of both families: a call of
`dlopen(NULL)` is made only on a registry miss whose extension file failed to
load; and once such a call has returned a handle `h`, no later resolver call
makes it again, and every later miss whose extension file fails to load looks
its symbol up in `h`. -/
theorem body_opened_once (st0 : Registry) (pre : List Req) (r : Req) :
    (∀ res, DlEvent.dlopen_self res ∈ (resolve (resolve_all st0 pre) r).2 →
      is_miss (resolve_all st0 pre) r ∧ r.env.dlopen (some (ext_path r)) = none) ∧
    (∀ h, DlEvent.dlopen_self (some h) ∈ (resolve (resolve_all st0 pre) r).2 →
      ∀ (mid : List Req) (r2 : Req),
        (∀ res, DlEvent.dlopen_self res ∉
          (resolve (resolve_all (resolve (resolve_all st0 pre) r).1 mid) r2).2) ∧
        (is_miss (resolve_all (resolve (resolve_all st0 pre) r).1 mid) r2 →
          r2.env.dlopen (some (ext_path r2)) = none →
          (resolve (resolve_all (resolve (resolve_all st0 pre) r).1 mid) r2).2 =
            [.dlopen_file (ext_path r2) none, .dlsym h (sym_name r2)])) := by
  refine ⟨fun res hres => ?_, fun h hh mid r2 => ?_⟩
  · have := self_open_only _ r res hres
    exact ⟨this.1, this.2.1⟩
  · have hb : (resolve (resolve_all st0 pre) r).1.BODY = some h :=
      (self_open_only _ r (some h) hh).2.2.2
    have hb2 := body_kept_all h mid _ hb
    refine ⟨fun res => no_self_open _ r2 h hb2 res, fun hm he => ?_⟩
    exact ((loader_use _ r2).cached h hm he hb2).1

/-- C10 as amended, at a concrete input. From the initial statics: the qdisc `foo` makes `dlopen(NULL)` return
handle 1; the later filter `u32` misses, its extension file does not load,
and its symbol is looked up in handle 1 with no second `dlopen(NULL)`. -/
theorem body_opened_once_witness :
    DlEvent.dlopen_self (some 1) ∈
      (resolve (resolve_all Registry.init []) ⟨.qdisc, "foo".toList, demo_loader⟩).2 ∧
    is_miss (resolve_all (resolve (resolve_all Registry.init [])
      ⟨.qdisc, "foo".toList, demo_loader⟩).1 []) ⟨.filter, "u32".toList, demo_loader⟩ ∧
    (resolve (resolve_all (resolve (resolve_all Registry.init [])
      ⟨.qdisc, "foo".toList, demo_loader⟩).1 []) ⟨.filter, "u32".toList, demo_loader⟩).2 =
      [.dlopen_file "/usr/lib/tc/f_u32.so".toList none, .dlsym 1 "u32_filter_util".toList] :=
  ⟨by decide, by decide,
   ((body_opened_once Registry.init [] ⟨.qdisc, "foo".toList, demo_loader⟩).2 1 (by decide)
      [] ⟨.filter, "u32".toList, demo_loader⟩).2 (by decide) (by decide)⟩

/-- C10 as stated fails: after the qdisc `foo` has made `dlopen(NULL)` return
handle 1, the qdisc `bar` misses the registry, but its extension file
`q_bar.so` loads (handle 2) and its symbol is looked up there, not in the
cached handle 1. -/
theorem later_miss_may_use_extension :
    DlEvent.dlopen_self (some 1) ∈
      (resolve Registry.init ⟨.qdisc, "foo".toList, demo_loader⟩).2 ∧
    (resolve Registry.init ⟨.qdisc, "foo".toList, demo_loader⟩).1.BODY = some 1 ∧
    is_miss (resolve Registry.init ⟨.qdisc, "foo".toList, demo_loader⟩).1
      ⟨.qdisc, "bar".toList, demo_loader⟩ ∧
    (resolve (resolve Registry.init ⟨.qdisc, "foo".toList, demo_loader⟩).1
      ⟨.qdisc, "bar".toList, demo_loader⟩).2 =
      [.dlopen_file "/usr/lib/tc/q_bar.so".toList (some 2),
       .dlsym 2 "bar_qdisc_util".toList] ∧
    (∀ name, DlEvent.dlsym 1 name ∉
      (resolve (resolve Registry.init ⟨.qdisc, "foo".toList, demo_loader⟩).1
        ⟨.qdisc, "bar".toList, demo_loader⟩).2) := by
  refine ⟨by decide, by decide, by decide, by decide, ?_⟩
  intro name
  have h : (resolve (resolve Registry.init ⟨.qdisc, "foo".toList, demo_loader⟩).1
      ⟨.qdisc, "bar".toList, demo_loader⟩).2 =
      [.dlopen_file "/usr/lib/tc/q_bar.so".toList (some 2),
       .dlsym 2 "bar_qdisc_util".toList] := by decide
  rw [h]
  simp

/-! ## The registries as caches -/

/-- What a miss of `get_qdisc_kind` does to `qdisc_list`: nothing when no
handler could be produced, else the returned handler is linked at the head. -/
theorem get_qdisc_kind_reg (E : DlEnv) (st : Registry) (str : Str)
    (h : st.qdisc_list.find? (fun q => q.id == str) = none) :
    ((get_qdisc_kind E st str).ret = none ∧
      (get_qdisc_kind E st str).st.qdisc_list = st.qdisc_list) ∨
    (∃ q, (get_qdisc_kind E st str).ret = some q ∧
      (get_qdisc_kind E st str).st.qdisc_list = q :: st.qdisc_list ∧
      (q.id = str ∨ ∃ dlh name, E.dlsym_qdisc dlh name = some q)) := by
  have hne : ∀ (st1 : Registry) (tr : List DlEvent), st1.qdisc_list = st.qdisc_list →
      (((qdisc_noexist E st1 str tr).ret = none ∧
        (qdisc_noexist E st1 str tr).st.qdisc_list = st.qdisc_list) ∨
      (∃ q, (qdisc_noexist E st1 str tr).ret = some q ∧
        (qdisc_noexist E st1 str tr).st.qdisc_list = q :: st.qdisc_list ∧
        (q.id = str ∨ ∃ dlh name, E.dlsym_qdisc dlh name = some q))) := by
    intro st1 tr hl
    unfold qdisc_noexist
    split
    · right; exact ⟨_, rfl, by simp [hl], Or.inl rfl⟩
    · left; exact ⟨rfl, hl⟩
  have hst : (open_handle E st
      (snprintf_buf (E.tc_lib ++ "/q_".toList ++ str ++ ".so".toList))).2.1.qdisc_list =
      st.qdisc_list := by
    rcases open_handle_cases E st
      (snprintf_buf (E.tc_lib ++ "/q_".toList ++ str ++ ".so".toList))
      with ⟨_, _, e⟩ | ⟨_, _, _, e⟩ | ⟨_, _, e⟩ <;> rw [e]
  unfold get_qdisc_kind
  rw [h]
  dsimp only
  rcases hoh : open_handle E st (snprintf_buf (E.tc_lib ++ "/q_".toList ++ str ++ ".so".toList))
    with ⟨dlh, st1, tr⟩
  rw [hoh] at hst
  dsimp only at hst
  cases dlh with
  | none => exact hne st1 tr hst
  | some dlh =>
    dsimp only
    cases hs : E.dlsym_qdisc dlh (snprintf_buf (str ++ "_qdisc_util".toList)) with
    | none => exact hne st1 _ hst
    | some q =>
      right
      exact ⟨q, rfl, congrArg (List.cons q) hst, Or.inr ⟨dlh, _, hs⟩⟩

/-- The same for `get_filter_kind`; the stub carries the first 15 characters
of the name. -/
theorem get_filter_kind_reg (E : DlEnv) (st : Registry) (str : Str)
    (h : st.filter_list.find? (fun q => q.id == str) = none) :
    ((get_filter_kind E st str).ret = none ∧
      (get_filter_kind E st str).st.filter_list = st.filter_list) ∨
    (∃ q, (get_filter_kind E st str).ret = some q ∧
      (get_filter_kind E st str).st.filter_list = q :: st.filter_list ∧
      (q.id = str.take 15 ∨ ∃ dlh name, E.dlsym_filter dlh name = some q)) := by
  have hne : ∀ (st1 : Registry) (tr : List DlEvent), st1.filter_list = st.filter_list →
      (((filter_noexist E st1 str tr).ret = none ∧
        (filter_noexist E st1 str tr).st.filter_list = st.filter_list) ∨
      (∃ q, (filter_noexist E st1 str tr).ret = some q ∧
        (filter_noexist E st1 str tr).st.filter_list = q :: st.filter_list ∧
        (q.id = str.take 15 ∨ ∃ dlh name, E.dlsym_filter dlh name = some q))) := by
    intro st1 tr hl
    unfold filter_noexist
    split
    · right; exact ⟨_, rfl, by simp [hl], Or.inl rfl⟩
    · left; exact ⟨rfl, hl⟩
  have hst : (open_handle E st
      (snprintf_buf (E.tc_lib ++ "/f_".toList ++ str ++ ".so".toList))).2.1.filter_list =
      st.filter_list := by
    rcases open_handle_cases E st
      (snprintf_buf (E.tc_lib ++ "/f_".toList ++ str ++ ".so".toList))
      with ⟨_, _, e⟩ | ⟨_, _, _, e⟩ | ⟨_, _, e⟩ <;> rw [e]
  unfold get_filter_kind
  rw [h]
  dsimp only
  rcases hoh : open_handle E st (snprintf_buf (E.tc_lib ++ "/f_".toList ++ str ++ ".so".toList))
    with ⟨dlh, st1, tr⟩
  rw [hoh] at hst
  dsimp only at hst
  cases dlh with
  | none => exact hne st1 tr hst
  | some dlh =>
    dsimp only
    cases hs : E.dlsym_filter dlh (snprintf_buf (str ++ "_filter_util".toList)) with
    | none => exact hne st1 _ hst
    | some q =>
      right
      exact ⟨q, rfl, congrArg (List.cons q) hst, Or.inr ⟨dlh, _, hs⟩⟩

/-- When `get_qdisc_kind` returns a handler registered under the requested
name, asking again returns that very handler, makes no loader call and leaves
the statics untouched. A stub always is registered under the requested name. -/
theorem get_qdisc_kind_again (E E2 : DlEnv) (st : Registry) (str : Str) (q : qdisc_util)
    (hret : (get_qdisc_kind E st str).ret = some q) (hid : q.id = str) :
    get_qdisc_kind E2 (get_qdisc_kind E st str).st str =
      ⟨some q, (get_qdisc_kind E st str).st, []⟩ := by
  apply get_qdisc_kind_hit
  cases hf : st.qdisc_list.find? (fun q => q.id == str) with
  | some q1 =>
    rw [get_qdisc_kind_hit E st str q1 hf] at hret ⊢
    simp only [Option.some.injEq] at hret
    rw [← hret]; exact hf
  | none =>
    rcases get_qdisc_kind_reg E st str hf with ⟨h1, _⟩ | ⟨q1, h1, h2, _⟩
    · rw [h1] at hret; cases hret
    · rw [h1] at hret
      simp only [Option.some.injEq] at hret
      subst hret
      rw [h2, List.find?_cons]
      simp [hid]

/-- The same for `get_filter_kind`; here a stub is registered under the
requested name only when the name has at most 15 characters. -/
theorem get_filter_kind_again (E E2 : DlEnv) (st : Registry) (str : Str) (q : filter_util)
    (hret : (get_filter_kind E st str).ret = some q) (hid : q.id = str) :
    get_filter_kind E2 (get_filter_kind E st str).st str =
      ⟨some q, (get_filter_kind E st str).st, []⟩ := by
  apply get_filter_kind_hit
  cases hf : st.filter_list.find? (fun q => q.id == str) with
  | some q1 =>
    rw [get_filter_kind_hit E st str q1 hf] at hret ⊢
    simp only [Option.some.injEq] at hret
    rw [← hret]; exact hf
  | none =>
    rcases get_filter_kind_reg E st str hf with ⟨h1, _⟩ | ⟨q1, h1, h2, _⟩
    · rw [h1] at hret; cases hret
    · rw [h1] at hret
      simp only [Option.some.injEq] at hret
      subst hret
      rw [h2, List.find?_cons]
      simp [hid]

/-- C1 at the failing input: a filter name of 16 characters, no real
implementation anywhere. The first `get_filter_kind` registers a stub whose
`id` is the first 15 characters; the second call does not find it, allocates
a second stub (block 1 instead of block 0) and the registry grows to two
entries. `get_qdisc_kind`, on the same name, returns the same stub twice and
keeps one entry. -/
theorem filter_long_name_resolved_twice :
    (get_filter_kind demo_loader Registry.init "abcdefghijklmnop".toList).ret =
      some ⟨.heap 0, "abcdefghijklmno".toList, .noopt⟩ ∧
    (get_filter_kind demo_loader
      (get_filter_kind demo_loader Registry.init "abcdefghijklmnop".toList).st
      "abcdefghijklmnop".toList).ret = some ⟨.heap 1, "abcdefghijklmno".toList, .noopt⟩ ∧
    (get_filter_kind demo_loader
      (get_filter_kind demo_loader Registry.init "abcdefghijklmnop".toList).st
      "abcdefghijklmnop".toList).st.filter_list.length = 2 ∧
    (get_qdisc_kind demo_loader
      (get_qdisc_kind demo_loader Registry.init "abcdefghijklmnop".toList).st
      "abcdefghijklmnop".toList).ret =
      (get_qdisc_kind demo_loader Registry.init "abcdefghijklmnop".toList).ret ∧
    (get_qdisc_kind demo_loader
      (get_qdisc_kind demo_loader Registry.init "abcdefghijklmnop".toList).st
      "abcdefghijklmnop".toList).st.qdisc_list.length = 1 := by
  decide

/-- C7 at the failing input: two filter names of 20 characters that agree on
their first 15, no real implementation anywhere. From the empty registries,
resolving both leaves `filter_list` with two stubs of the same `id`. -/
theorem filter_registry_duplicate_id :
    (resolve_all Registry.init
      [⟨.filter, "traffic_classifier_a".toList, demo_loader⟩,
       ⟨.filter, "traffic_classifier_b".toList, demo_loader⟩]).filter_list =
      [⟨.heap 1, "traffic_classif".toList, .noopt⟩,
       ⟨.heap 0, "traffic_classif".toList, .noopt⟩] ∧
    ¬ ((resolve_all Registry.init
      [⟨.filter, "traffic_classifier_a".toList, demo_loader⟩,
       ⟨.filter, "traffic_classifier_b".toList, demo_loader⟩]).filter_list.map
        filter_util.id).Nodup := by
  decide

/-! ## Uniqueness of `id` where it does hold -/

theorem get_qdisc_kind_frame (E : DlEnv) (st : Registry) (str : Str) :
    (get_qdisc_kind E st str).st.filter_list = st.filter_list := by
  have hne : ∀ (st1 : Registry) (tr : List DlEvent),
      (qdisc_noexist E st1 str tr).st.filter_list = st1.filter_list := by
    intro st1 tr
    unfold qdisc_noexist
    split <;> rfl
  have hst : (open_handle E st
      (snprintf_buf (E.tc_lib ++ "/q_".toList ++ str ++ ".so".toList))).2.1.filter_list =
      st.filter_list := by
    rcases open_handle_cases E st
      (snprintf_buf (E.tc_lib ++ "/q_".toList ++ str ++ ".so".toList))
      with ⟨_, _, e⟩ | ⟨_, _, _, e⟩ | ⟨_, _, e⟩ <;> rw [e]
  unfold get_qdisc_kind
  cases hf : st.qdisc_list.find? (fun q => q.id == str) with
  | some q => rfl
  | none =>
    dsimp only
    rcases hoh : open_handle E st
      (snprintf_buf (E.tc_lib ++ "/q_".toList ++ str ++ ".so".toList)) with ⟨dlh, st1, tr⟩
    rw [hoh] at hst
    dsimp only at hst
    cases dlh with
    | none => exact (hne st1 tr).trans hst
    | some dlh =>
      dsimp only
      cases hs : E.dlsym_qdisc dlh (snprintf_buf (str ++ "_qdisc_util".toList)) with
      | none => exact (hne st1 _).trans hst
      | some q => exact hst

theorem get_filter_kind_frame (E : DlEnv) (st : Registry) (str : Str) :
    (get_filter_kind E st str).st.qdisc_list = st.qdisc_list := by
  have hne : ∀ (st1 : Registry) (tr : List DlEvent),
      (filter_noexist E st1 str tr).st.qdisc_list = st1.qdisc_list := by
    intro st1 tr
    unfold filter_noexist
    split <;> rfl
  have hst : (open_handle E st
      (snprintf_buf (E.tc_lib ++ "/f_".toList ++ str ++ ".so".toList))).2.1.qdisc_list =
      st.qdisc_list := by
    rcases open_handle_cases E st
      (snprintf_buf (E.tc_lib ++ "/f_".toList ++ str ++ ".so".toList))
      with ⟨_, _, e⟩ | ⟨_, _, _, e⟩ | ⟨_, _, e⟩ <;> rw [e]
  unfold get_filter_kind
  cases hf : st.filter_list.find? (fun q => q.id == str) with
  | some q => rfl
  | none =>
    dsimp only
    rcases hoh : open_handle E st
      (snprintf_buf (E.tc_lib ++ "/f_".toList ++ str ++ ".so".toList)) with ⟨dlh, st1, tr⟩
    rw [hoh] at hst
    dsimp only at hst
    cases dlh with
    | none => exact (hne st1 tr).trans hst
    | some dlh =>
      dsimp only
      cases hs : E.dlsym_filter dlh (snprintf_buf (str ++ "_filter_util".toList)) with
      | none => exact (hne st1 _).trans hst
      | some q => exact hst

/-- One resolver call on the stub route keeps the `id`s of `qdisc_list`
pairwise distinct, and those of `filter_list` too when the call is for a
qdisc or its name has at most 15 characters. -/
theorem resolve_keeps_unique (st : Registry) (r : Req) (hstub : stub_route r)
    (hshort : r.family = .filter → r.str.length ≤ 15)
    (hq : (st.qdisc_list.map qdisc_util.id).Nodup)
    (hf : (st.filter_list.map filter_util.id).Nodup) :
    ((resolve st r).1.qdisc_list.map qdisc_util.id).Nodup ∧
    ((resolve st r).1.filter_list.map filter_util.id).Nodup := by
  obtain ⟨fam, str, E⟩ := r
  cases fam with
  | qdisc =>
    simp only [resolve]
    rw [get_qdisc_kind_frame]
    refine ⟨?_, hf⟩
    cases hfind : st.qdisc_list.find? (fun q => q.id == str) with
    | some q => rw [get_qdisc_kind_hit E st str q hfind]; exact hq
    | none =>
      rcases get_qdisc_kind_reg E st str hfind with ⟨_, h2⟩ | ⟨q, _, h2, h3⟩
      · rw [h2]; exact hq
      · rw [h2]
        rcases h3 with h3 | ⟨dlh, name, h3⟩
        · rw [List.map_cons, List.nodup_cons]
          refine ⟨fun hmem => ?_, hq⟩
          obtain ⟨q1, hq1, hq2⟩ := List.mem_map.1 hmem
          have := List.find?_eq_none.1 hfind q1 hq1
          simp [hq2, h3] at this
        · rw [hstub.1 dlh name] at h3; cases h3
  | filter =>
    simp only [resolve]
    rw [get_filter_kind_frame]
    refine ⟨hq, ?_⟩
    have hlen : str.take 15 = str := List.take_of_length_le (hshort rfl)
    cases hfind : st.filter_list.find? (fun q => q.id == str) with
    | some q => rw [get_filter_kind_hit E st str q hfind]; exact hf
    | none =>
      rcases get_filter_kind_reg E st str hfind with ⟨_, h2⟩ | ⟨q, _, h2, h3⟩
      · rw [h2]; exact hf
      · rw [h2]
        rcases h3 with h3 | ⟨dlh, name, h3⟩
        · rw [hlen] at h3
          rw [List.map_cons, List.nodup_cons]
          refine ⟨fun hmem => ?_, hf⟩
          obtain ⟨q1, hq1, hq2⟩ := List.mem_map.1 hmem
          have := List.find?_eq_none.1 hfind q1 hq1
          simp [hq2, h3] at this
        · rw [hstub.2 dlh name] at h3; cases h3

/-- From the empty registries, any sequence of resolver calls on the stub
route in which every filter name has at most 15 characters leaves both
registries without two handlers of equal `id`. For `qdisc_list` no bound on
the names is needed. -/
theorem registry_ids_unique : ∀ (reqs : List Req) (st : Registry),
    (∀ r ∈ reqs, stub_route r) → (∀ r ∈ reqs, r.family = .filter → r.str.length ≤ 15) →
    (st.qdisc_list.map qdisc_util.id).Nodup → (st.filter_list.map filter_util.id).Nodup →
    ((resolve_all st reqs).qdisc_list.map qdisc_util.id).Nodup ∧
    ((resolve_all st reqs).filter_list.map filter_util.id).Nodup := by
  intro reqs
  induction reqs with
  | nil => intro st _ _ hq hf; exact ⟨hq, hf⟩
  | cons r more ih =>
    intro st hstub hshort hq hf
    have h1 := resolve_keeps_unique st r (hstub r (List.mem_cons_self _ _))
      (hshort r (List.mem_cons_self _ _)) hq hf
    exact ih _ (fun r2 h2 => hstub r2 (List.mem_cons_of_mem _ h2))
      (fun r2 h2 => hshort r2 (List.mem_cons_of_mem _ h2)) h1.1 h1.2

end Tc
